import Mathlib

/-!
Verification of the gitright repository: a shallow embedding of the
JWT issuance/validation/revocation scheme, the badge-extraction and
Markdown-assembly pipeline, the batch repository analysis, and the
surrounding HTTP handlers, together with theorems settling the frozen
claims about them.

Conventions of the embedding:
* Go strings on the JWT path are byte lists (`List Nat`, each < 256);
  on the profile pipeline they are Lean `String`.
* Go maps are represented as association lists; where the Go code
  ranges over a map (randomized iteration order) the iteration order
  is an explicit parameter constrained to be a permutation of the
  map contents.
* Fallible Go calls and external collaborators (database, GitHub API,
  LLM API) enter as explicit outcome parameters.
* float64 values are only carried through, never computed with; they
  are represented by their 64-bit pattern (a `Nat`).
-/

namespace GitRight

/-! ## Data model (internal/models), fields as used by the code under src/ -/

/-- models.Badge: a shields.io badge with display name and color. -/
structure Badge where
  name : String
  color : String
  deriving DecidableEq, Repr

/-- models.Repository, the fields read by the markdown builder and services. -/
structure Repo where
  name : String
  fullName : String
  description : String
  htmlURL : String
  topics : List String
  stargazersCount : Nat
  forksCount : Nat
  isPrivate : Bool
  deriving DecidableEq, Repr

/-- models.RepositoryAnalysis: languages and dependencies are Go maps,
represented as association lists in a fixed order. -/
structure RepoAnalysis where
  repository : Option Repo
  languages : List (String × Nat)
  dependencies : List (String × List String)
  commitCount : Nat
  contributorCount : Nat
  deriving DecidableEq, Repr

/-- models.ContactPrefs as read by buildMarkdown. -/
structure ContactPrefs where
  email : String
  linkedIn : String
  twitter : String
  personalWebsite : String
  deriving DecidableEq, Repr

/-- models.User, the fields read by the profile pipeline. -/
structure GenUser where
  username : String
  bio : String
  location : String
  company : String
  email : String
  blog : String
  avatarURL : String
  deriving DecidableEq, Repr

/-- models.ContentGenerationRequest. -/
structure ContentGenerationRequest where
  targetRole : String
  toneOfVoice : String
  emphasizedSkills : List String
  contactPrefs : ContactPrefs
  projects : List RepoAnalysis
  userAPIKey : String
  deriving DecidableEq, Repr

/-- models.ProjectSummary. -/
structure ProjectSummary where
  repository : Option Repo
  summary : String
  techStack : List String
  deriving DecidableEq, Repr

/-- models.ProfileConfig as assembled by GenerateProfile. -/
structure ProfileConfig where
  targetRole : String
  skillsEmphasis : List String
  toneOfVoice : String
  contactPrefs : ContactPrefs
  deriving DecidableEq, Repr

/-- llm.ProjectSummaryData (summary and skills of one project from the LLM). -/
structure ProjectSummaryData where
  summary : String
  skills : List String
  deriving DecidableEq, Repr

/-- llm.BatchProfileResponse; Confidence is a float64 carried through
unchanged, represented by its bit pattern. -/
structure BatchProfileResponse where
  profilePitch : String
  projectSummaries : List ProjectSummaryData
  extractedSkills : List String
  confidence : Nat
  deriving DecidableEq, Repr

/-- models.ContentGenerationResponse. -/
structure ContentGenerationResponse where
  markdown : String
  extractedSkills : List String
  suggestedBadges : List Badge
  confidence : Nat
  deriving DecidableEq, Repr

/-! ## Small Go string helpers used by the pipeline -/

/-- ASCII lower-casing of one character (the keys fed to the badge catalog
are ASCII). -/
def asciiLower (c : Char) : Char :=
  if 65 ≤ c.toNat ∧ c.toNat ≤ 90 then Char.ofNat (c.toNat + 32) else c

/-- strings.ToLower restricted to ASCII input. -/
def goToLower (s : String) : String :=
  String.mk (s.data.map asciiLower)

/-- First-match lookup in an association list (a Go map read m[k]). -/
def alistLookup {α : Type} (l : List (String × α)) (k : String) : Option α :=
  match l with
  | [] => none
  | (k2, v) :: rest => if k2 = k then some v else alistLookup rest k

/-- Split a character list at every occurrence of the separator. -/
def charSplit (sep : Char) : List Char → List (List Char)
  | [] => [[]]
  | c :: rest =>
    if c = sep then [] :: charSplit sep rest
    else
      match charSplit sep rest with
      | [] => [[c]]
      | chunk :: chunks => (c :: chunk) :: chunks

/-- strings.Split with a single-character separator. -/
def goSplitOnChar (sep : Char) (s : String) : List String :=
  (charSplit sep s.data).map String.mk

/-- strings.Contains with a single-character pattern. -/
def goContainsChar (c : Char) (s : String) : Bool :=
  s.data.any (fun c2 => c2 = c)

/-- strings.HasPrefix. -/
def goStartsWith (p s : String) : Bool :=
  p.data.isPrefixOf s.data

/-- Dropping the first n characters of a Go string (s[n:] on ASCII input). -/
def goDrop (n : Nat) (s : String) : String :=
  String.mk (s.data.drop n)

/-- strings.ReplaceAll with a single-character pattern. -/
def goReplaceChar (pat : Char) (rep : String) (s : String) : String :=
  String.mk ((s.data.map (fun c => if c = pat then rep.data else [c])).flatten)

/-- The white-space class of strings.TrimSpace, restricted to ASCII. -/
def goIsSpace (c : Char) : Bool :=
  c = ' ' ∨ c = '\t' ∨ c = '\n' ∨ c = '\x0b' ∨ c = '\x0c' ∨ c = '\r'

/-- strings.TrimSpace. -/
def goTrim (s : String) : String :=
  String.mk (((s.data.dropWhile goIsSpace).reverse.dropWhile goIsSpace).reverse)

/-- strings.Join. -/
def goJoin (l : List String) (sep : String) : String :=
  match l with
  | [] => ""
  | s :: rest => rest.foldl (fun acc x => acc ++ sep ++ x) s

/-! ## Badge catalog (profile_service.go, buildBadgeCatalog) -/

set_option maxHeartbeats 1600000 in
/-- The entries slice of buildBadgeCatalog: every known technology badge. -/
def catalogEntries : List Badge := [
  ⟨"Go", "00ADD8"⟩, ⟨"Python", "3776AB"⟩, ⟨"JavaScript", "F7DF1E"⟩,
  ⟨"TypeScript", "3178C6"⟩, ⟨"Rust", "000000"⟩, ⟨"Java", "ED8B00"⟩,
  ⟨"Kotlin", "7F52FF"⟩, ⟨"Swift", "FA7343"⟩, ⟨"C++", "00599C"⟩,
  ⟨"C", "A8B9CC"⟩, ⟨"C#", "239120"⟩, ⟨"PHP", "777BB4"⟩,
  ⟨"Ruby", "CC342D"⟩, ⟨"Dart", "0175C2"⟩, ⟨"Scala", "DC322F"⟩,
  ⟨"Elixir", "4B275F"⟩, ⟨"Haskell", "5D4F85"⟩, ⟨"Lua", "2C2D72"⟩,
  ⟨"Shell", "4EAA25"⟩, ⟨"HTML5", "E34F26"⟩, ⟨"CSS3", "1572B6"⟩,
  ⟨"React", "61DAFB"⟩, ⟨"Vue.js", "4FC08D"⟩, ⟨"Angular", "DD0031"⟩,
  ⟨"Svelte", "FF3E00"⟩, ⟨"Next.js", "000000"⟩, ⟨"Nuxt.js", "00DC82"⟩,
  ⟨"Gatsby", "663399"⟩, ⟨"Remix", "000000"⟩, ⟨"Astro", "FF5D01"⟩,
  ⟨"TailwindCSS", "06B6D4"⟩, ⟨"Vite", "646CFF"⟩,
  ⟨"Node.js", "339933"⟩, ⟨"Express.js", "000000"⟩, ⟨"Fastify", "000000"⟩,
  ⟨"NestJS", "E0234E"⟩, ⟨"Django", "092E20"⟩, ⟨"Flask", "000000"⟩,
  ⟨"FastAPI", "009688"⟩, ⟨"Spring Boot", "6DB33F"⟩, ⟨"Laravel", "FF2D20"⟩,
  ⟨"Ruby on Rails", "CC0000"⟩, ⟨"Fiber", "00ADD8"⟩, ⟨"Gin", "00ADD8"⟩,
  ⟨"Echo", "00ADD8"⟩, ⟨"Flutter", "02569B"⟩, ⟨"React Native", "61DAFB"⟩,
  ⟨"PostgreSQL", "316192"⟩, ⟨"MySQL", "00000F"⟩, ⟨"MongoDB", "47A248"⟩,
  ⟨"Redis", "DC382D"⟩, ⟨"SQLite", "07405E"⟩, ⟨"Cassandra", "1287B1"⟩,
  ⟨"Elasticsearch", "005571"⟩, ⟨"Supabase", "3ECF8E"⟩, ⟨"Firebase", "FFCA28"⟩,
  ⟨"Neon", "00E699"⟩, ⟨"Prisma", "2D3748"⟩, ⟨"Drizzle", "C5F74F"⟩,
  ⟨"Docker", "2496ED"⟩, ⟨"Kubernetes", "326CE5"⟩, ⟨"Terraform", "7B42BC"⟩,
  ⟨"Ansible", "EE0000"⟩, ⟨"AWS", "FF9900"⟩, ⟨"GCP", "4285F4"⟩,
  ⟨"Azure", "0078D4"⟩, ⟨"Vercel", "000000"⟩, ⟨"Netlify", "00C7B7"⟩,
  ⟨"Heroku", "430098"⟩, ⟨"Nginx", "009639"⟩,
  ⟨"Git", "F05032"⟩, ⟨"GraphQL", "E10098"⟩, ⟨"gRPC", "244C5A"⟩,
  ⟨"Apache Kafka", "231F20"⟩, ⟨"RabbitMQ", "FF6600"⟩,
  ⟨"Prometheus", "E6522C"⟩, ⟨"Grafana", "F46800"⟩, ⟨"Linux", "FCC624"⟩,
  ⟨"OpenAI", "412991"⟩]

/-- The aliases map of buildBadgeCatalog: alias key to canonical name. -/
def catalogAliases : List (String × String) := [
  ("golang", "Go"), ("js", "JavaScript"), ("ts", "TypeScript"),
  ("cpp", "C++"), ("csharp", "C#"), ("html", "HTML5"), ("css", "CSS3"),
  ("vue", "Vue.js"), ("next", "Next.js"), ("nextjs", "Next.js"),
  ("nuxt", "Nuxt.js"), ("express", "Express.js"), ("nestjs", "NestJS"),
  ("@nestjs/core", "NestJS"), ("spring", "Spring Boot"),
  ("spring-boot", "Spring Boot"), ("rails", "Ruby on Rails"),
  ("k8s", "Kubernetes"), ("postgres", "PostgreSQL"), ("node", "Node.js"),
  ("tailwind", "TailwindCSS"), ("react-native", "React Native"),
  ("kafka", "Apache Kafka"), ("grpc", "gRPC"), ("bash", "Shell")]

/-- The byName index of buildBadgeCatalog: lowercased canonical name to badge. -/
def catalogByName : List (String × Badge) :=
  catalogEntries.map (fun e => (goToLower e.name, e))

/-- buildBadgeCatalog: lookup map from every lowercased alias or name to the
canonical badge (a Go map; only looked up by key, never ranged over). -/
def buildBadgeCatalog : List (String × Badge) :=
  catalogByName ++
    catalogAliases.filterMap (fun ac =>
      (alistLookup catalogByName (goToLower ac.2)).map (fun b => (goToLower ac.1, b)))

/-! ## buildBadgesFromProjectData (profile_service.go) -/

/-- The add closure of buildBadgesFromProjectData: look the key up in the
catalog (lowercased) and record the badge unless one with the same display
name is already present. The accumulator is the badgeMap in insertion
order. -/
def addBadge (catalog : List (String × Badge)) (acc : List Badge) (key : String) :
    List Badge :=
  match alistLookup catalog (goToLower key) with
  | some b => if acc.any (fun x => x.name = b.name) then acc else acc ++ [b]
  | none => acc

/-- Dependency-key normalisation in priority 3 of buildBadgesFromProjectData:
lowercase, and for scoped npm packages keep the text between the at sign
and the first slash. -/
def normalizeDepKey (dep : String) : String :=
  let key := goToLower dep
  if goStartsWith "@" key then ((goSplitOnChar '/' (goDrop 1 key)).headD "") else key

/-- The contents of the badgeMap built by buildBadgesFromProjectData, in
insertion order: emphasized skills, then every language of every project,
then framework keys inferred from dependencies, then LLM skills. A run of
the Go function yields these badges in an arbitrary order because the map
is ranged over; the order is made explicit elsewhere. -/
def buildBadgesFromProjectData (projects : List RepoAnalysis)
    (llmSkills emphasizedSkills : List String) : List Badge :=
  let catalog := buildBadgeCatalog
  let acc := emphasizedSkills.foldl (addBadge catalog) []
  let acc := projects.foldl (fun acc p =>
    p.languages.foldl (fun acc lb => addBadge catalog acc lb.1) acc) acc
  let acc := projects.foldl (fun acc p =>
    p.dependencies.foldl (fun acc kd =>
      kd.2.foldl (fun acc dep => addBadge catalog acc (normalizeDepKey dep)) acc) acc) acc
  llmSkills.foldl (addBadge catalog) acc

/-! ## Markdown helpers (profile_service.go) -/

/-- The special-cases map of toLogoSlug. -/
def logoSlugSpecial : List (String × String) := [
  ("C++", "cplusplus"), ("C#", "csharp"), ("Vue.js", "vuedotjs"),
  ("Next.js", "nextdotjs"), ("Nuxt.js", "nuxtdotjs"),
  ("Express.js", "express"), ("Node.js", "nodedotjs"),
  ("Ruby on Rails", "rubyonrails"), ("React Native", "react"),
  ("Spring Boot", "springboot"), ("Apache Kafka", "apachekafka"),
  ("TailwindCSS", "tailwindcss"), ("HTML5", "html5"), ("CSS3", "css3"),
  ("gRPC", "grpc"), ("GCP", "googlecloud"), ("AWS", "amazonaws"),
  ("Drizzle", "drizzle"), ("Neon", "neon"), ("Vite", "vite"),
  ("Astro", "astro"), ("Gatsby", "gatsby"), ("OpenAI", "openai"),
  ("Prometheus", "prometheus"), ("Grafana", "grafana"),
  ("Elasticsearch", "elasticsearch"), ("Supabase", "supabase"),
  ("Firebase", "firebase"), ("Prisma", "prisma")]

/-- toLogoSlug: badge display name to shields.io simple-icons slug. -/
def toLogoSlug (name : String) : String :=
  match alistLookup logoSlugSpecial name with
  | some slug => slug
  | none =>
    let s := goToLower name
    let s := goReplaceChar ' ' "" s
    let s := goReplaceChar '.' "" s
    let s := goReplaceChar '+' "plus" s
    goReplaceChar '#' "sharp" s

/-- One step of summing bytes per language into the totals list (the totals
Go map, in first-seen key order). -/
def bumpTotal (acc : List (String × Nat)) (lang : String) (bytes : Nat) :
    List (String × Nat) :=
  match acc with
  | [] => [(lang, bytes)]
  | (l, b) :: rest =>
    if l = lang then (l, b + bytes) :: rest else (l, b) :: bumpTotal rest lang bytes

/-- The totals map of collectTopLanguages, as an association list in
first-seen key order of the given project/language lists. The content as a
finite map is independent of iteration order because += commutes; only the
representative order here is a choice, and everything below treats it up to
permutation. -/
def langTotals (projects : List RepoAnalysis) : List (String × Nat) :=
  projects.foldl (fun acc p =>
    p.languages.foldl (fun acc lb => bumpTotal acc lb.1 lb.2) acc) []

/-- A possible run of collectTopLanguages' sorting phase: the totals map is
ranged in randomized order into a slice, which sort.Slice then orders by
strictly-greater byte count. sort.Slice is not stable, so the only
guarantee is that the result is some permutation of the totals that is
weakly descending by byte count; tied byte counts can land in any order,
differing from run to run. -/
def SortSliceOutcome (totals sorted : List (String × Nat)) : Prop :=
  sorted.Perm totals ∧ sorted.Pairwise (fun a b => b.2 ≤ a.2)

instance (totals sorted : List (String × Nat)) :
    Decidable (SortSliceOutcome totals sorted) := by
  unfold SortSliceOutcome; exact inferInstance

/-- collectTopLanguages: the first n language names of the run's sorted
slice (the byte-count ranking chosen by that run's map range and
sort.Slice call on the project totals). -/
def collectTopLanguages (n : Nat) (sorted : List (String × Nat)) : List String :=
  (sorted.take n).map Prod.fst

/-- collectAllTopics: unique topics across all repos, in first-seen order. -/
def collectAllTopics (projects : List RepoAnalysis) : List String :=
  projects.foldl (fun acc p =>
    match p.repository with
    | none => acc
    | some r => r.topics.foldl (fun acc t => if t ∈ acc then acc else acc ++ [t]) acc) []

/-- portfolioURL: contact-preference website, else the account blog. -/
def portfolioURL (config : ProfileConfig) (user : GenUser) : String :=
  if config.contactPrefs.personalWebsite ≠ "" then config.contactPrefs.personalWebsite
  else user.blog

/-- The encode closure of buildTypingLines: trim and replace spaces by plus. -/
def typingEncode (s : String) : String :=
  goReplaceChar ' ' "+" (goTrim s)

/-- buildTypingLines: URL-encoded lines for the readme-typing-svg service. -/
def buildTypingLines (config : ProfileConfig) (topLangs topics : List String) :
    List String :=
  let lines : List String := []
  let lines := if config.targetRole ≠ "" then lines ++ [typingEncode config.targetRole]
    else lines
  let lines :=
    match topLangs with
    | [] => lines
    | [l0] => lines ++ [l0 ++ "+Developer"]
    | l0 :: l1 :: _ => lines ++ [typingEncode l0 ++ " & " ++ typingEncode l1 ++ " Developer"]
  let lines :=
    match config.skillsEmphasis with
    | [] => lines
    | s0 :: _ => lines ++ ["Expert+in+" ++ typingEncode s0]
  let lines := topics.foldl (fun ls t => if ls.length ≥ 5 then ls else ls ++ [typingEncode t]) lines
  if lines.length = 0 then ["Software+Developer"] else lines

/-- The language-name set of organizeBadgesByCategory. -/
def langSet : List String := ["Go", "Python", "JavaScript", "TypeScript",
  "Rust", "Java", "Kotlin", "Swift", "C++", "C", "C#", "PHP", "Ruby",
  "Dart", "Scala", "Elixir", "Haskell", "Lua", "Shell", "HTML5", "CSS3"]

/-- The framework-name set of organizeBadgesByCategory. -/
def frameworkSet : List String := ["React", "Vue.js", "Angular", "Svelte",
  "Next.js", "Nuxt.js", "Gatsby", "Remix", "Astro", "TailwindCSS", "Vite",
  "Node.js", "Express.js", "Fastify", "NestJS", "Django", "Flask",
  "FastAPI", "Spring Boot", "Laravel", "Ruby on Rails", "Fiber", "Gin",
  "Echo", "Flutter", "React Native"]

/-- The database-name set of organizeBadgesByCategory. -/
def dbSet : List String := ["PostgreSQL", "MySQL", "MongoDB", "Redis",
  "SQLite", "Cassandra", "Elasticsearch", "Supabase", "Firebase", "Neon",
  "Prisma", "Drizzle"]

/-- organizeBadgesByCategory: the four display groups in render order
(Languages, Frameworks and Libraries, Databases, Tools and Platforms); each
group keeps the incoming badge order. Empty groups are skipped when
rendering, which models the bucket deletion in the source. -/
def organizeBadgesByCategory (badges : List Badge) :
    List Badge × List Badge × List Badge × List Badge :=
  badges.foldl (fun gs b =>
    if b.name ∈ langSet then (gs.1 ++ [b], gs.2.1, gs.2.2.1, gs.2.2.2)
    else if b.name ∈ frameworkSet then (gs.1, gs.2.1 ++ [b], gs.2.2.1, gs.2.2.2)
    else if b.name ∈ dbSet then (gs.1, gs.2.1, gs.2.2.1 ++ [b], gs.2.2.2)
    else (gs.1, gs.2.1, gs.2.2.1, gs.2.2.2 ++ [b]))
    ([], [], [], [])

/-! ## buildMarkdown (profile_service.go) -/

/-- Renders one badge image reference of the Tech Stack section. -/
def renderBadge (b : Badge) : String :=
  "![" ++ b.name ++ "](https://img.shields.io/badge/" ++
    (goReplaceChar ' ' "%20" b.name) ++ "-" ++ b.color ++
    "?style=flat-square&logo=" ++ toLogoSlug b.name ++ "&logoColor=white) "

/-- Renders one category block of the Tech Stack section (nothing if the
category holds no badges). -/
def renderCategory (title : String) (catBadges : List Badge) : String :=
  if catBadges.length = 0 then ""
  else "**" ++ title ++ "**\n\n" ++ String.join (catBadges.map renderBadge) ++ "\n\n"

/-- Renders one featured project (index i, as in the source loop); returns
the empty string when the summary has no repository, exactly like the
continue in the source. projSorts holds, per project index, the run's
sort.Slice outcome for the per-project collectTopLanguages call. -/
def renderProject (username : String) (projects : List RepoAnalysis)
    (projSorts : List (List (String × Nat)))
    (total : Nat) (i : Nat) (sum : ProjectSummary) : String :=
  match sum.repository with
  | none => ""
  | some repo =>
    let owner := if goContainsChar '/' repo.fullName then
        ((goSplitOnChar '/' repo.fullName).headD "") else username
    let md := "### [" ++ repo.name ++ "](" ++ repo.htmlURL ++ ")\n\n"
    let md := md ++ (if repo.description ≠ "" then "> " ++ repo.description ++ "\n\n" else "")
    let md := md ++ "[![Repo Card](https://github-readme-stats.vercel.app/api/pin/?username=" ++
      owner ++ "&repo=" ++ repo.name ++ "&theme=tokyonight&hide_border=true)](" ++
      repo.htmlURL ++ ")\n\n"
    let md := md ++ (if sum.summary ≠ "" then sum.summary ++ "\n\n" else "")
    let md := md ++ (if sum.techStack.length > 0 then
      "**Tech:** " ++ String.join (sum.techStack.map (fun tech => "`" ++ tech ++ "` ")) ++ "\n\n"
      else "")
    let stats : List String := []
    let stats := if repo.stargazersCount > 0 then
        stats ++ ["⭐ " ++ toString repo.stargazersCount ++ " stars"] else stats
    let stats := if repo.forksCount > 0 then
        stats ++ ["🍴 " ++ toString repo.forksCount ++ " forks"] else stats
    let stats :=
      match projects.get? i with
      | none => stats
      | some analysis =>
        let stats := if analysis.commitCount > 0 then
            stats ++ ["📝 " ++ toString analysis.commitCount ++ " commits"] else stats
        let stats := if analysis.contributorCount > 0 then
            stats ++ ["👥 " ++ toString analysis.contributorCount ++ " contributors"] else stats
        let topProjLangs := collectTopLanguages 3 (projSorts.getD i [])
        if topProjLangs.length > 0 then
          stats ++ ["🔤 " ++ goJoin topProjLangs " / "] else stats
    let stats := if repo.topics.length > 0 then
        stats ++ ["🏷️ " ++ goJoin
          (repo.topics.take (Nat.min 5 repo.topics.length)) ", "] else stats
    let md := md ++ (if stats.length > 0 then
        goJoin stats " &nbsp;·&nbsp; " ++ "\n\n" else "")
    md ++ (if i < total - 1 then "---\n\n" else "")

/-- buildMarkdown: assembles the README from all pipeline data. A direct
translation of the string-builder in the source, section by section.
topSort is the run's sort.Slice outcome for the top-level
collectTopLanguages call on all projects; projSorts the outcomes of the
per-project calls, by project index. -/
def buildMarkdown (user : GenUser) (req : ContentGenerationRequest)
    (pitch : String) (summaries : List ProjectSummary) (badges : List Badge)
    (config : ProfileConfig) (topSort : List (String × Nat))
    (projSorts : List (List (String × Nat))) : String :=
  let username := user.username
  let topLangs := collectTopLanguages 5 topSort
  let allTopics := collectAllTopics req.projects
  let siteURL := portfolioURL config user
  let contactEmail := if config.contactPrefs.email ≠ "" then config.contactPrefs.email
    else user.email
  -- hero
  let md := "<div align=\"center\">\n\n"
  let md := md ++ (if user.avatarURL ≠ "" then
    "<img src=\"" ++ user.avatarURL ++
      "\" width=\"120\" height=\"120\" style=\"border-radius:50%\" alt=\"@" ++
      username ++ "\" />\n\n" else "")
  let md := md ++ "# Hi, I'm @" ++ username ++
    " <img src=\"https://raw.githubusercontent.com/MartinHeinz/MartinHeinz/master/wave.gif\" width=\"28px\" />\n\n"
  let md := md ++ (if user.bio ≠ "" then "**" ++ user.bio ++ "**\n\n" else "")
  let meta : List String := []
  let meta := if user.location ≠ "" then meta ++ ["📍 " ++ user.location] else meta
  let meta := if user.company ≠ "" then
      (if goStartsWith "@" user.company then
        meta ++ ["🏢 [" ++ user.company ++ "](https://github.com/" ++
          goDrop 1 user.company ++ ")"]
      else meta ++ ["🏢 " ++ user.company])
    else meta
  let md := md ++ (if meta.length > 0 then
      goJoin meta " &nbsp;·&nbsp; " ++ "\n\n" else "")
  let typingLines := buildTypingLines config topLangs allTopics
  let md := md ++
    "[![Typing SVG](https://readme-typing-svg.demolab.com?font=Fira+Code&size=22&duration=3000&pause=1000&color=2E97F7&center=true&vCenter=true&width=650&height=80&lines=" ++
    goJoin typingLines ";" ++ ")](https://git.io/typing-svg)\n\n"
  let md := md ++ "![Profile Views](https://komarev.com/ghpvc/?username=" ++ username ++
    "&label=Profile%20Views&color=0e75b6&style=flat)\n"
  let md := md ++ "[![Followers](https://img.shields.io/github/followers/" ++ username ++
    "?label=Followers&style=social)](https://github.com/" ++ username ++ "?tab=followers)\n"
  let md := md ++ "[![Stars](https://img.shields.io/github/stars/" ++ username ++
    "?label=Stars&style=social)](https://github.com/" ++ username ++ ")\n\n"
  let md := md ++ "</div>\n\n"
  -- about me
  let md := md ++ "## 👨‍💻 About Me\n\n" ++ pitch ++ "\n\n"
  let md := md ++ (if config.targetRole ≠ "" then
      "- 🎯 Growing as a **" ++ config.targetRole ++ "**\n" else "")
  let md := md ++ (if summaries.length > 0 then
      (let names := (summaries.take (Nat.min 2 summaries.length)).filterMap (fun sum =>
        sum.repository.map (fun r => "[" ++ r.name ++ "](" ++ r.htmlURL ++ ")"))
      if names.length > 0 then
        "- 🔭 Currently building **" ++ goJoin names " & " ++ "**\n"
      else "")
    else "")
  let md := md ++ (if config.skillsEmphasis.length > 0 then
      "- 🌱 Deepening expertise in **" ++
        goJoin (config.skillsEmphasis.take (Nat.min 2 config.skillsEmphasis.length))
          " & " ++ "**\n"
    else if topLangs.length > 0 then
      "- 🌱 Deepening expertise in **" ++ topLangs.headD "" ++ "**\n"
    else "")
  let md := md ++ (if topLangs.length > 0 then
      "- 💬 Ask me about **" ++
        goJoin (topLangs.take (Nat.min 3 topLangs.length)) ", " ++ "**\n"
    else "")
  let md := md ++ (if contactEmail ≠ "" then
      "- 📫 Reach me at **" ++ contactEmail ++ "**\n" else "")
  let md := md ++ "\n"
  -- connect
  let md := md ++ "## 🌐 Connect\n\n" ++ "<div align=\"center\">\n\n"
  let md := md ++ (if config.contactPrefs.linkedIn ≠ "" then
      "[![LinkedIn](https://img.shields.io/badge/LinkedIn-0077B5?style=for-the-badge&logo=linkedin&logoColor=white)](" ++
        config.contactPrefs.linkedIn ++ ")\n" else "")
  let md := md ++ (if config.contactPrefs.twitter ≠ "" then
      "[![Twitter/X](https://img.shields.io/badge/Twitter-000000?style=for-the-badge&logo=x&logoColor=white)](" ++
        config.contactPrefs.twitter ++ ")\n" else "")
  let md := md ++ (if contactEmail ≠ "" then
      "[![Email](https://img.shields.io/badge/Email-D14836?style=for-the-badge&logo=gmail&logoColor=white)](mailto:" ++
        contactEmail ++ ")\n" else "")
  let md := md ++ (if siteURL ≠ "" then
      "[![Website](https://img.shields.io/badge/Website-FF5722?style=for-the-badge&logo=googlechrome&logoColor=white)](" ++
        siteURL ++ ")\n" else "")
  let md := md ++ "[![GitHub](https://img.shields.io/badge/GitHub-100000?style=for-the-badge&logo=github&logoColor=white)](https://github.com/" ++
    username ++ ")\n\n"
  let md := md ++ "</div>\n\n"
  -- tech stack
  let md := md ++ (if badges.length > 0 then
      (let cats := organizeBadgesByCategory badges
      "## 🛠️ Tech Stack\n\n" ++ "<div align=\"center\">\n\n" ++
        renderCategory "Languages" cats.1 ++
        renderCategory "Frameworks & Libraries" cats.2.1 ++
        renderCategory "Databases" cats.2.2.1 ++
        renderCategory "Tools & Platforms" cats.2.2.2 ++
        "</div>\n\n")
    else "")
  -- github stats
  let md := md ++ "## 📊 GitHub Stats\n\n" ++ "<div align=\"center\">\n\n"
  let md := md ++ "![" ++ username ++ "'s stats](https://github-readme-stats.vercel.app/api?username=" ++
    username ++ "&show_icons=true&count_private=true&theme=tokyonight&hide_border=true)\n"
  let md := md ++ "![Top langs](https://github-readme-stats.vercel.app/api/top-langs/?username=" ++
    username ++ "&layout=compact&theme=tokyonight&hide_border=true)\n\n"
  let md := md ++ "![Streak](https://streak-stats.demolab.com?user=" ++ username ++
    "&theme=tokyonight&hide_border=true)\n\n"
  let md := md ++ "[![Trophies](https://github-profile-trophy.vercel.app/?username=" ++
    username ++ "&theme=tokyonight&no-frame=true&margin-w=4)](https://github.com/ryo-ma/github-profile-trophy)\n\n"
  let md := md ++ "</div>\n\n"
  -- featured projects
  let md := md ++ (if summaries.length > 0 then
      "## 🚀 Featured Projects\n\n" ++
        String.join (summaries.enum.map (fun isum =>
          renderProject username req.projects projSorts summaries.length isum.1 isum.2))
    else "")
  -- activity graph
  let md := md ++ "## 📈 Contribution Activity\n\n" ++ "<div align=\"center\">\n\n"
  let md := md ++ "[![Activity Graph](https://github-readme-activity-graph.vercel.app/graph?username=" ++
    username ++ "&theme=tokyo-night&hide_border=true)](https://github.com/ashutosh00710/github-readme-activity-graph)\n\n"
  let md := md ++ "</div>\n\n"
  -- footer
  let md := md ++ "---\n\n" ++ "<div align=\"center\">\n\n"
  let md := md ++ "*Generated with [GitRight](https://github.com/" ++ username ++
    ") · ![](https://komarev.com/ghpvc/?username=" ++ username ++ "&style=flat-square)*\n\n"
  md ++ "</div>\n"

/-! ## GenerateProfile (profile_service.go) and the profile cache key -/

/-- repository.GetCacheKey: the profile cache key is built from username,
target role, tone of voice and the number of projects only. -/
def GetCacheKey (username targetRole toneOfVoice : String) (projectCount : Nat) :
    String :=
  "profile:v3:" ++ username ++ ":" ++ targetRole ++ ":" ++ toneOfVoice ++ ":" ++
    toString projectCount

/-- The project summaries assembled by GenerateProfile: LLM summaries paired
with the submitted projects, truncated at the shorter of the two lists. -/
def buildSummaries (projects : List RepoAnalysis)
    (ps : List ProjectSummaryData) : List ProjectSummary :=
  (ps.zip projects).map (fun pp => ⟨pp.2.repository, pp.1.summary, pp.1.skills⟩)

/-- GenerateProfile. External collaborators and per-run nondeterminism
enter as parameters: the cache read as a function of the key, the LLM
batch call as an outcome, the badge iteration order of the run, the
sort.Slice outcomes of the run's collectTopLanguages calls (top-level and
per project), and whether the trailing cache write fails. Returns the Go
return value together with the warn-log lines emitted. -/
def GenerateProfile (req : ContentGenerationRequest) (user : GenUser)
    (cacheGet : String → Option ContentGenerationResponse)
    (gen : Except String BatchProfileResponse)
    (badgeOrder : List Badge) (topSort : List (String × Nat))
    (projSorts : List (List (String × Nat))) (cacheSetFails : Bool) :
    Except String ContentGenerationResponse × List String :=
  if req.userAPIKey = "" then
    (.error "API key required - get free key: https://aistudio.google.com/app/apikey", [])
  else if req.projects.length = 0 then
    (.error "at least one project required", [])
  else
    let cacheKey := GetCacheKey user.username req.targetRole req.toneOfVoice
      req.projects.length
    match cacheGet cacheKey with
    | some cached => (.ok cached, [])
    | none =>
      match gen with
      | .error e => (.error ("generation failed: " ++ e), [])
      | .ok batchResp =>
        let summaries := buildSummaries req.projects batchResp.projectSummaries
        let config : ProfileConfig :=
          ⟨req.targetRole, req.emphasizedSkills, req.toneOfVoice, req.contactPrefs⟩
        let markdown := buildMarkdown user req batchResp.profilePitch summaries
          badgeOrder config topSort projSorts
        let response : ContentGenerationResponse :=
          ⟨markdown, batchResp.extractedSkills, badgeOrder, batchResp.confidence⟩
        if cacheSetFails then
          (.ok response, ["Failed to cache profile generation result"])
        else
          (.ok response, [])

/-! ## GitHub service (github_service.go) -/

/-- ListUserRepositories: cached list if present, otherwise fetch, filter
private repositories out unless requested, cache best-effort, return. -/
def ListUserRepositories (cached : Option (List Repo))
    (fetched : Except String (List Repo)) (includePrivate : Bool)
    (cacheSetFails : Bool) : Except String (List Repo) × List String :=
  match cached with
  | some repos => (.ok repos, [])
  | none =>
    match fetched with
    | .error e => (.error ("failed to list repositories: " ++ e), [])
    | .ok githubRepos =>
      let repos := githubRepos.filter (fun gr => !(!includePrivate && gr.isPrivate))
      if cacheSetFails then (.ok repos, ["Failed to cache repository list"])
      else (.ok repos, [])

/-- ClearUserCache: a failing cache invalidation is logged and swallowed;
the function always returns nil. -/
def ClearUserCache (invalidateFails : Bool) : Except String Unit × List String :=
  if invalidateFails then
    (.ok (), ["Failed to invalidate repository list cache"])
  else
    (.ok (), [])

/-- Overwrite-or-append insertion keyed by repository full name (writing
results[fullName] in the Go map). -/
def mapInsert (m : List (String × RepoAnalysis)) (k : String) (v : RepoAnalysis) :
    List (String × RepoAnalysis) :=
  match m with
  | [] => [(k, v)]
  | (k2, v2) :: rest =>
    if k2 = k then (k, v) :: rest else (k2, v2) :: mapInsert rest k v

/-- One loop iteration of BatchAnalyzeRepositories: parse owner/repo, run the
analysis, and either record the result or append one error. -/
def batchStep (analyze : String → String → Except String RepoAnalysis)
    (acc : List (String × RepoAnalysis) × List String) (fullName : String) :
    List (String × RepoAnalysis) × List String :=
  match goSplitOnChar '/' fullName with
  | [owner, repo] =>
    match analyze owner repo with
    | .ok analysis => (mapInsert acc.1 fullName analysis, acc.2)
    | .error e => (acc.1, acc.2 ++ ["repository \"" ++ fullName ++ "\": " ++ e])
  | _ => (acc.1, acc.2 ++ ["invalid repository name \"" ++ fullName ++ "\": must be owner/repo"])

/-- BatchAnalyzeRepositories: partial results plus the list of individual
errors; errors.Join of that list is nil exactly when the list is empty. -/
def BatchAnalyzeRepositories (analyze : String → String → Except String RepoAnalysis)
    (repos : List String) : List (String × RepoAnalysis) × List String :=
  repos.foldl (batchStep analyze) ([], [])

/-! ## HTTP handlers (github handler file) -/

/-- An echo handler outcome: a JSON success response or an HTTPError. -/
inductive HttpResult where
  | ok (status : Nat) (body : String)
  | httpError (status : Nat) (message : String)
  deriving DecidableEq, Repr

/-- The ClearCache handler: 401 without an authenticated user id, 500 if
ClearUserCache errs, 200 otherwise. -/
def ClearCache (userID : Option Int) (invalidateFails : Bool) : HttpResult :=
  match userID with
  | none => .httpError 401 "Unauthorized"
  | some _ =>
    match (ClearUserCache invalidateFails).1 with
    | .error _ => .httpError 500 "Failed to clear cache"
    | .ok _ => .ok 200 "Cache cleared successfully"

/-- The BatchAnalyze handler. The bound request body arrives as an Option
(none when binding fails). Returns the HTTP outcome, the repository list
passed to the analysis service (none when the service is not called), and
what the service call returned to the handler. -/
def BatchAnalyze (accessToken : Option String)
    (bindResult : Option (List String))
    (analyze : String → String → Except String RepoAnalysis) :
    HttpResult × Option (List String) ×
      Option (List (String × RepoAnalysis) × List String) :=
  match accessToken with
  | none => (.httpError 401 "Unauthorized", none, none)
  | some _ =>
    match bindResult with
    | none => (.httpError 400 "Invalid request body", none, none)
    | some repos =>
      if repos.length = 0 then
        (.httpError 400 "At least one repository is required", none, none)
      else if repos.length > 10 then
        (.httpError 400 "Maximum 10 repositories allowed", none, none)
      else
        let res := BatchAnalyzeRepositories analyze repos
        if res.2.length ≠ 0 then
          (.httpError 500 "Failed to analyze repositories", some repos, some res)
        else
          (.ok 200 "analyses", some repos, some res)

/-! ## Progress channel (websocket handler) -/

/-- ProgressUpdate streamed over the websocket; Progress is a float64
carried through unchanged, represented by its bit pattern. -/
structure ProgressUpdate where
  stage : String
  progress : Nat
  message : String
  error : String
  deriving DecidableEq, Repr

/-- The capacity the progress channel is created with in
HandleProfileGeneration (make chan of ProgressUpdate with buffer 10). -/
def progressChannelCapacity : Nat := 10

/-- The send closure of generateWithProgress: a select with a default
branch, so the update is enqueued when the buffer has room and dropped
otherwise; the producer never waits. -/
def trySendProgress (q : List ProgressUpdate) (u : ProgressUpdate) :
    List ProgressUpdate :=
  if q.length < progressChannelCapacity then q ++ [u] else q

/-- The sequence of updates generateWithProgress offers to the channel: three
before the generation call and, when it succeeds, one after. The float64
constants 0.0, 0.1, 0.4 and 0.95 appear as their bit patterns. -/
def generateWithProgressUpdates (projectCount : Nat) (genOk : Bool) :
    List ProgressUpdate :=
  [⟨"init", 0, "Starting profile generation...", ""⟩,
   ⟨"analyzing", 0x3FB999999999999A,
     "Preparing " ++ toString projectCount ++ " project(s) for analysis...", ""⟩,
   ⟨"generating", 0x3FD999999999999A,
     "Sending to AI — this may take up to 30 seconds...", ""⟩] ++
  (if genOk then [⟨"finalizing", 0x3FEE666666666666, "Assembling final profile...", ""⟩]
   else [])

/-! ## Byte-level string model for the JWT path (middleware file)

Go strings on this path are byte lists; ASCII literals are injected with
strBytes. -/

/-- The bytes of an ASCII Lean string literal. -/
def strBytes (s : String) : List Nat :=
  s.data.map Char.toNat

/-- The byte of the dot separating JWT segments. -/
def dotByte : Nat := 46

/-- The byte of the space separating the Authorization header parts. -/
def spaceByte : Nat := 32

/-- strings.Split with a single-byte separator (the source only splits on
a dot or a space). Always returns at least one chunk. -/
def stringsSplit (sep : Nat) : List Nat → List (List Nat)
  | [] => [[]]
  | b :: rest =>
    if b = sep then [] :: stringsSplit sep rest
    else
      match stringsSplit sep rest with
      | [] => [[b]]
      | chunk :: chunks => (b :: chunk) :: chunks

/-! ## base64.RawURLEncoding -/

/-- The base64url alphabet: sextet value to byte. -/
def b64Char (v : Nat) : Nat :=
  if v < 26 then 65 + v
  else if v < 52 then 71 + v
  else if v < 62 then v - 4
  else if v = 62 then 45
  else 95

/-- Inverse of the base64url alphabet: byte to sextet value. -/
def b64Val (c : Nat) : Option Nat :=
  if 65 ≤ c ∧ c ≤ 90 then some (c - 65)
  else if 97 ≤ c ∧ c ≤ 122 then some (c - 71)
  else if 48 ≤ c ∧ c ≤ 57 then some (c + 4)
  else if c = 45 then some 62
  else if c = 95 then some 63
  else none

/-- base64.RawURLEncoding.EncodeToString on a byte list (unpadded). -/
def base64urlEncode : List Nat → List Nat
  | [] => []
  | [a] => [b64Char (a / 4), b64Char (a % 4 * 16)]
  | [a, b] => [b64Char (a / 4), b64Char (a % 4 * 16 + b / 16), b64Char (b % 16 * 4)]
  | a :: b :: c :: rest =>
    b64Char (a / 4) :: b64Char (a % 4 * 16 + b / 16) ::
      b64Char (b % 16 * 4 + c / 64) :: b64Char (c % 64) :: base64urlEncode rest

/-- base64.RawURLEncoding.DecodeString on a byte list: rejects a dangling
character, an alphabet violation, or non-zero trailing bits. -/
def base64urlDecode : List Nat → Option (List Nat)
  | [] => some []
  | [_] => none
  | [c1, c2] =>
    match b64Val c1, b64Val c2 with
    | some v1, some v2 =>
      if v2 % 16 = 0 then some [v1 * 4 + v2 / 16] else none
    | _, _ => none
  | [c1, c2, c3] =>
    match b64Val c1, b64Val c2, b64Val c3 with
    | some v1, some v2, some v3 =>
      if v3 % 4 = 0 then some [v1 * 4 + v2 / 16, v2 % 16 * 16 + v3 / 4] else none
    | _, _, _ => none
  | c1 :: c2 :: c3 :: c4 :: rest =>
    match b64Val c1, b64Val c2, b64Val c3, b64Val c4 with
    | some v1, some v2, some v3, some v4 =>
      match base64urlDecode rest with
      | some bs =>
        some ((v1 * 4 + v2 / 16) :: (v2 % 16 * 16 + v3 / 4) :: (v3 % 4 * 64 + v4) :: bs)
      | none => none
    | _, _, _, _ => none

/-! ## hex.EncodeToString -/

/-- Lower-case hex digit of a value below 16. -/
def hexDigit (v : Nat) : Nat :=
  if v < 10 then 48 + v else 87 + v

/-- hex.EncodeToString on a byte list. -/
def hexEncodeBytes : List Nat → List Nat
  | [] => []
  | b :: rest => hexDigit (b / 16) :: hexDigit (b % 16) :: hexEncodeBytes rest

/-- Value of one lower-case hex digit byte. -/
def hexVal (c : Nat) : Option Nat :=
  if 48 ≤ c ∧ c ≤ 57 then some (c - 48)
  else if 97 ≤ c ∧ c ≤ 102 then some (c - 87)
  else if 65 ≤ c ∧ c ≤ 70 then some (c - 55)
  else none

/-! ## Decimal integers (encoding/json numbers) -/

/-- Digit bytes of a positive number, most significant first, prepended to
acc; fuel-structured so that it computes by kernel reduction. -/
def natToDecAux : Nat → Nat → List Nat → List Nat
  | 0, _, acc => acc
  | fuel + 1, n, acc =>
    if n = 0 then acc else natToDecAux fuel (n / 10) ((48 + n % 10) :: acc)

/-- Decimal digit bytes of a natural number (json.Marshal of a number). -/
def natToDec (n : Nat) : List Nat :=
  if n = 0 then [48] else natToDecAux (n + 1) n []

/-- Decimal bytes of an int64, with a leading minus sign when negative. -/
def intToDec (i : Int) : List Nat :=
  if i < 0 then 45 :: natToDec i.natAbs else natToDec i.natAbs

/-- Greedy digit accumulation of a JSON number parser. -/
def parseNumAux : List Nat → Nat → Nat × List Nat
  | [], acc => (acc, [])
  | b :: rest, acc =>
    if 48 ≤ b ∧ b ≤ 57 then parseNumAux rest (acc * 10 + (b - 48))
    else (acc, b :: rest)

/-- Parse a non-negative JSON number: at least one leading digit. -/
def parseNatNum : List Nat → Option (Nat × List Nat)
  | [] => none
  | b :: rest =>
    if 48 ≤ b ∧ b ≤ 57 then some (parseNumAux rest (b - 48)) else none

/-- Parse a JSON integer with an optional minus sign. -/
def parseIntNum : List Nat → Option (Int × List Nat)
  | [] => none
  | b :: rest =>
    if b = 45 then
      match parseNatNum rest with
      | some (n, r) => some (-(n : Int), r)
      | none => none
    else
      match parseNatNum (b :: rest) with
      | some (n, r) => some ((n : Int), r)
      | none => none

/-! ## encoding/json string escaping (byte-wise) -/

/-- Escaping of one byte under json.Marshal with the default HTML escaping:
quote, backslash, newline, carriage return and tab get two-byte escapes;
other control bytes and the HTML-sensitive angle brackets and ampersand
get a lower-case u-escape; everything else passes through. -/
def jsonEscapeByte (b : Nat) : List Nat :=
  if b = 34 then [92, 34]
  else if b = 92 then [92, 92]
  else if b = 10 then [92, 110]
  else if b = 13 then [92, 114]
  else if b = 9 then [92, 116]
  else if b < 32 then [92, 117, 48, 48, hexDigit (b / 16), hexDigit (b % 16)]
  else if b = 60 then [92, 117, 48, 48, 51, 99]
  else if b = 62 then [92, 117, 48, 48, 51, 101]
  else if b = 38 then [92, 117, 48, 48, 50, 54]
  else [b]

/-- json.Marshal of a string value, without the surrounding quotes. -/
def jsonEscape (s : List Nat) : List Nat :=
  (s.map jsonEscapeByte).flatten

/-- Parse the body of a JSON string up to the closing quote, undoing
jsonEscapeByte; returns the decoded bytes and the input after the quote. -/
def parseStringBody : List Nat → Option (List Nat × List Nat)
  | [] => none
  | b :: rest =>
    if b = 34 then some ([], rest)
    else if b = 92 then
      match rest with
      | [] => none
      | e :: rest2 =>
        if e = 34 then (parseStringBody rest2).map (fun p => (34 :: p.1, p.2))
        else if e = 92 then (parseStringBody rest2).map (fun p => (92 :: p.1, p.2))
        else if e = 110 then (parseStringBody rest2).map (fun p => (10 :: p.1, p.2))
        else if e = 114 then (parseStringBody rest2).map (fun p => (13 :: p.1, p.2))
        else if e = 116 then (parseStringBody rest2).map (fun p => (9 :: p.1, p.2))
        else if e = 117 then
          match rest2 with
          | h1 :: h2 :: h3 :: h4 :: rest3 =>
            match hexVal h1, hexVal h2, hexVal h3, hexVal h4 with
            | some v1, some v2, some v3, some v4 =>
              (parseStringBody rest3).map
                (fun p => ((((v1 * 16 + v2) * 16 + v3) * 16 + v4) :: p.1, p.2))
            | _, _, _, _ => none
          | _ => none
        else none
    else (parseStringBody rest).map (fun p => (b :: p.1, p.2))

/-! ## JWT claims and their JSON round trip (middleware file) -/

/-- middleware.JWTClaims: user id, username, token id and expiry (Unix
seconds), serialised in field order user_id, username, jti, exp. -/
structure JWTClaims where
  userID : Int
  username : List Nat
  jti : List Nat
  expiresAt : Int
  deriving DecidableEq, Repr

/-- json.Marshal of JWTClaims: Go serialises struct fields in declaration
order with the configured json keys. -/
def jsonMarshalClaims (c : JWTClaims) : List Nat :=
  strBytes "\x7b\"user_id\":" ++ intToDec c.userID ++
  strBytes ",\"username\":\"" ++ jsonEscape c.username ++
  strBytes "\",\"jti\":\"" ++ jsonEscape c.jti ++
  strBytes "\",\"exp\":" ++ intToDec c.expiresAt ++
  strBytes "\x7d"

/-- Expect a literal prefix and return the remaining input. -/
def parseLit : List Nat → List Nat → Option (List Nat)
  | [], input => some input
  | _ :: _, [] => none
  | l :: ls, b :: bs => if b = l then parseLit ls bs else none

/-- json.Unmarshal into JWTClaims, restricted to the canonical shape that
jsonMarshalClaims produces. -/
def jsonUnmarshalClaims (input : List Nat) : Option JWTClaims := do
  let r ← parseLit (strBytes "\x7b\"user_id\":") input
  let (uid, r) ← parseIntNum r
  let r ← parseLit (strBytes ",\"username\":\"") r
  let (uname, r) ← parseStringBody r
  let r ← parseLit (strBytes ",\"jti\":\"") r
  let (jti, r) ← parseStringBody r
  let r ← parseLit (strBytes ",\"exp\":") r
  let (exp, r) ← parseIntNum r
  let r ← parseLit (strBytes "\x7d") r
  match r with
  | [] => some ⟨uid, uname, jti, exp⟩
  | _ => none

/-! ## crypto/sha256 and crypto/hmac

Concrete, kernel-computable model of HMAC-SHA256 (FIPS 180-4); 32-bit words
are naturals reduced modulo 2^32. -/

/-- Reduction to a 32-bit word. -/
def w32 (n : Nat) : Nat := n % 4294967296

/-- Right rotation of a 32-bit word. -/
def rotr32 (x k : Nat) : Nat := w32 (x / 2 ^ k + x * 2 ^ (32 - k))

/-- The lower-case sigma-0 schedule function. -/
def smallSigma0 (x : Nat) : Nat := rotr32 x 7 ^^^ rotr32 x 18 ^^^ x / 2 ^ 3

/-- The lower-case sigma-1 schedule function. -/
def smallSigma1 (x : Nat) : Nat := rotr32 x 17 ^^^ rotr32 x 19 ^^^ x / 2 ^ 10

/-- The upper-case Sigma-0 compression function. -/
def bigSigma0 (x : Nat) : Nat := rotr32 x 2 ^^^ rotr32 x 13 ^^^ rotr32 x 22

/-- The upper-case Sigma-1 compression function. -/
def bigSigma1 (x : Nat) : Nat := rotr32 x 6 ^^^ rotr32 x 11 ^^^ rotr32 x 25

/-- The 64 SHA-256 round constants. -/
def sha256K : List Nat := [
  1116352408, 1899447441, 3049323471, 3921009573, 961987163,
  1508970993, 2453635748, 2870763221, 3624381080, 310598401,
  607225278, 1426881987, 1925078388, 2162078206, 2614888103,
  3248222580, 3835390401, 4022224774, 264347078, 604807628,
  770255983, 1249150122, 1555081692, 1996064986, 2554220882,
  2821834349, 2952996808, 3210313671, 3336571891, 3584528711,
  113926993, 338241895, 666307205, 773529912, 1294757372,
  1396182291, 1695183700, 1986661051, 2177026350, 2456956037,
  2730485921, 2820302411, 3259730800, 3345764771, 3516065817,
  3600352804, 4094571909, 275423344, 430227734, 506948616,
  659060556, 883997877, 958139571, 1322822218, 1537002063,
  1747873779, 1955562222, 2024104815, 2227730452, 2361852424,
  2428436474, 2756734187, 3204031479, 3329325298]

/-- The SHA-256 initial hash value. -/
def sha256H0 : List Nat := [
  1779033703, 3144134277, 1013904242, 2773480762,
  1359893119, 2600822924, 528734635, 1541459225]

/-- Message-schedule extension; the reversed schedule grows at the front,
48 iterations. -/
def sha256ExtendAux : Nat → List Nat → List Nat
  | 0, rws => rws
  | fuel + 1, rws =>
    let next := w32 (smallSigma1 (rws.getD 1 0) + rws.getD 6 0 +
      smallSigma0 (rws.getD 14 0) + rws.getD 15 0)
    sha256ExtendAux fuel (next :: rws)

/-- The 64-word message schedule of one block. -/
def sha256Schedule (block : List Nat) : List Nat :=
  (sha256ExtendAux 48 block.reverse).reverse

/-- One compression round on the working variables. -/
def sha256Round (st : List Nat) (kw : Nat × Nat) : List Nat :=
  match st with
  | [a, b, c, d, e, f, g, h] =>
    let t1 := w32 (h + bigSigma1 e + ((e &&& f) ^^^ ((4294967295 - e) &&& g)) +
      kw.1 + kw.2)
    let t2 := w32 (bigSigma0 a + ((a &&& b) ^^^ (a &&& c) ^^^ (b &&& c)))
    [w32 (t1 + t2), a, b, c, w32 (d + t1), e, f, g]
  | other => other

/-- Compression of one 16-word block into the hash state. -/
def sha256Compress (h : List Nat) (block : List Nat) : List Nat :=
  let st := (sha256K.zip (sha256Schedule block)).foldl sha256Round h
  (h.zip st).map (fun p => w32 (p.1 + p.2))

/-- Big-endian bytes of a value, fixed width. -/
def natToBytesBE : Nat → Nat → List Nat
  | 0, _ => []
  | k + 1, v => natToBytesBE k (v / 256) ++ [v % 256]

/-- Big-endian 32-bit words of a byte list. -/
def bytesToWords : List Nat → List Nat
  | b0 :: b1 :: b2 :: b3 :: rest =>
    (((b0 * 256 + b1) * 256 + b2) * 256 + b3) :: bytesToWords rest
  | _ => []

/-- SHA-256 padding: a 0x80 byte, zeros to 56 mod 64, and the bit length
as eight big-endian bytes. -/
def sha256Pad (msg : List Nat) : List Nat :=
  let l := msg.length
  msg ++ 128 :: List.replicate ((119 - l % 64) % 64) 0 ++ natToBytesBE 8 (8 * l)

/-- Fold the compression over the 64-byte blocks (fuel-structured). -/
def sha256BlocksAux : Nat → List Nat → List Nat → List Nat
  | 0, _, h => h
  | fuel + 1, bs, h =>
    match bs with
    | [] => h
    | _ :: _ => sha256BlocksAux fuel (bs.drop 64) (sha256Compress h (bytesToWords (bs.take 64)))

/-- sha256.Sum256 as a byte list. -/
def sha256 (msg : List Nat) : List Nat :=
  let padded := sha256Pad msg
  let hh := sha256BlocksAux (padded.length + 1) padded sha256H0
  (hh.map (natToBytesBE 4)).flatten

/-- hmac.New(sha256.New, key) followed by Write and Sum. -/
def hmacSha256 (key msg : List Nat) : List Nat :=
  let key := if key.length > 64 then sha256 key else key
  let key := key ++ List.replicate (64 - key.length) 0
  let inner := sha256 (key.map (fun b => b ^^^ 54) ++ msg)
  sha256 (key.map (fun b => b ^^^ 92) ++ inner)

/-! ## JWT issuance and validation (middleware file) -/

/-- createSignature: base64url of the HMAC-SHA256 of the message under the
secret. -/
def createSignature (message secret : List Nat) : List Nat :=
  base64urlEncode (hmacSha256 secret message)

/-- The constant first JWT segment: base64url of the HS256 JOSE header. -/
def headerSegment : List Nat :=
  base64urlEncode (strBytes "\x7b\"alg\":\"HS256\",\"typ\":\"JWT\"\x7d")

/-- time.Time.Unix of an instant given in nanoseconds: seconds since the
epoch, rounded toward negative infinity. -/
def goUnix (ns : Int) : Int := Int.ediv ns 1000000000

/-- GenerateJWT. The issuance instant (nanoseconds), the expiry duration
(nanoseconds) and the 16 random JTI bytes enter as parameters. -/
def GenerateJWT (userID : Int) (username secret : List Nat)
    (nowNs expiresInNs : Int) (jtiBytes : List Nat) : List Nat :=
  let jti := hexEncodeBytes jtiBytes
  let claims : JWTClaims := ⟨userID, username, jti, goUnix (nowNs + expiresInNs)⟩
  let payload := base64urlEncode (jsonMarshalClaims claims)
  let message := headerSegment ++ dotByte :: payload
  message ++ dotByte :: createSignature message secret

/-- validateJWT: three dot-separated segments, signature comparison, then
payload decode and unmarshal. -/
def validateJWT (token secret : List Nat) : Option JWTClaims :=
  match stringsSplit dotByte token with
  | [p0, p1, p2] =>
    if p2 ≠ createSignature (p0 ++ dotByte :: p1) secret then none
    else
      match base64urlDecode p1 with
      | none => none
      | some payloadBytes => jsonUnmarshalClaims payloadBytes
  | _ => none

/-! ## Session repository (session_repository.go)

The sessions table is keyed by id; rows carry a state type, a state value
and an expiry (Unix seconds). -/

/-- One row of the sessions table. -/
structure SessionRecord where
  stateType : List Nat
  stateValue : List Nat
  expiresAt : Int
  deriving DecidableEq, Repr

/-- The sessions table: an association list keyed by id (the primary key,
kept duplicate-free by upserts). -/
abbrev SessionStore := List (List Nat × SessionRecord)

/-- SELECT by primary key. -/
def storeLookup : SessionStore → List Nat → Option SessionRecord
  | [], _ => none
  | (k, r) :: rest, id => if k = id then some r else storeLookup rest id

/-- INSERT ... ON CONFLICT (id) DO UPDATE SET expires_at, state_value: a
conflicting row keeps its state type and takes the new value and expiry. -/
def sqlUpsert (store : SessionStore) (id : List Nat) (insertRec : SessionRecord) :
    SessionStore :=
  match store with
  | [] => [(id, insertRec)]
  | (k, r) :: rest =>
    if k = id then
      (k, ⟨r.stateType, insertRec.stateValue, insertRec.expiresAt⟩) :: rest
    else
      (k, r) :: sqlUpsert rest id insertRec

/-- The id under which a revoked JTI is stored. -/
def revokedKey (jti : List Nat) : List Nat := strBytes "revoked:" ++ jti

/-- The id under which an OAuth state is stored. -/
def oauthKey (s : List Nat) : List Nat := strBytes "oauth_state:" ++ s

/-- RevokeToken: upsert a revoked_token row for the JTI with the given
expiry. -/
def RevokeToken (store : SessionStore) (jti : List Nat) (expiresAt : Int) :
    SessionStore :=
  sqlUpsert store (revokedKey jti) ⟨strBytes "revoked_token", strBytes "revoked", expiresAt⟩

/-- IsTokenRevoked: is there an unexpired revoked_token row for the JTI. -/
def IsTokenRevoked (store : SessionStore) (now : Int) (jti : List Nat) : Bool :=
  match storeLookup store (revokedKey jti) with
  | some r =>
    if r.stateType = strBytes "revoked_token" ∧ now < r.expiresAt then true else false
  | none => false

/-- CreateOAuthState: upsert a valid oauth_state row. -/
def CreateOAuthState (store : SessionStore) (s : List Nat) (expiresAt : Int) :
    SessionStore :=
  sqlUpsert store (oauthKey s) ⟨strBytes "oauth_state", strBytes "valid", expiresAt⟩

/-- DeleteOAuthState: DELETE the oauth_state row with the given state. -/
def DeleteOAuthState (store : SessionStore) (s : List Nat) : SessionStore :=
  store.filter (fun kr =>
    !(kr.1 = oauthKey s ∧ kr.2.stateType = strBytes "oauth_state" : Bool))

/-- The sessions part of cleanup_expired_data: DELETE every row whose
expiry is in the past. -/
def CleanupExpiredSessions (store : SessionStore) (now : Int) : SessionStore :=
  store.filter (fun kr => !(kr.2.expiresAt < now : Bool))

/-- The operations the repository performs on the sessions table. -/
inductive SessionOp where
  | createOAuthState (s : List Nat) (expiresAt : Int)
  | deleteOAuthState (s : List Nat)
  | revokeToken (jti : List Nat) (expiresAt : Int)
  | cleanup (now : Int)
  deriving DecidableEq, Repr

/-- Interpretation of one session operation. -/
def applySessionOp (store : SessionStore) : SessionOp → SessionStore
  | .createOAuthState s e => CreateOAuthState store s e
  | .deleteOAuthState s => DeleteOAuthState store s
  | .revokeToken jti e => RevokeToken store jti e
  | .cleanup now => CleanupExpiredSessions store now

/-! ## AuthMiddleware (middleware file) and Logout (auth_handler.go) -/

/-- models.User, the fields the middleware puts into the request context. -/
structure UserRec where
  id : Int
  username : List Nat
  accessToken : List Nat
  deriving DecidableEq, Repr

/-- Outcome of the middleware: reject with 401 Unauthorized, or call the
next handler with the context values set. -/
inductive AuthOutcome where
  | unauthorized
  | next (user : UserRec) (userID : Int) (username : List Nat)
      (accessToken : List Nat) (jti : List Nat) (exp : Int)
  deriving DecidableEq, Repr

/-- The tail of the middleware after the revocation check: user lookup and
context population. -/
def authFinish (claims : JWTClaims) (userLookup : Int → Option UserRec) :
    AuthOutcome :=
  match userLookup claims.userID with
  | none => .unauthorized
  | some user =>
    .next user claims.userID claims.username user.accessToken claims.jti claims.expiresAt

/-- AuthMiddleware. The database enters as two parameters: the revocation
check (which may err) and the user lookup by id. -/
def AuthMiddleware (secret : List Nat) (authHeader : List Nat) (nowSec : Int)
    (revCheck : List Nat → Except Unit Bool)
    (userLookup : Int → Option UserRec) : AuthOutcome :=
  if authHeader = [] then .unauthorized
  else
    match stringsSplit spaceByte authHeader with
    | [scheme, token] =>
      if scheme ≠ strBytes "Bearer" then .unauthorized
      else
        match validateJWT token secret with
        | none => .unauthorized
        | some claims =>
          if nowSec > claims.expiresAt then .unauthorized
          else if claims.jti ≠ [] then
            match revCheck claims.jti with
            | .error _ => .unauthorized
            | .ok true => .unauthorized
            | .ok false => authFinish claims userLookup
          else authFinish claims userLookup
    | _ => .unauthorized

/-- The Logout handler: 401 without JTI or expiry in context, otherwise
revoke the JTI until the token's natural expiry. -/
def Logout (store : SessionStore) (jwtJti : Option (List Nat))
    (jwtExp : Option Int) : HttpResult × SessionStore :=
  match jwtJti with
  | none => (.httpError 401 "Unauthorized", store)
  | some jti =>
    if jti = [] then (.httpError 401 "Unauthorized", store)
    else
      match jwtExp with
      | none => (.httpError 401 "Unauthorized", store)
      | some exp => (.ok 200 "Logged out successfully", RevokeToken store jti exp)

/-! ## Theorems: cache clearing (C10) -/

/-- C10: ClearUserCache logs and swallows a failing cache invalidation and
returns nil for every input, so the 500 Failed-to-clear-cache branch of the
ClearCache handler is unreachable and DELETE /cache always responds 200 for
an authenticated user. -/
theorem C10_clearUserCache_never_fails :
    (∀ invalidateFails : Bool, (ClearUserCache invalidateFails).1 = .ok ()) ∧
    (∀ (uid : Int) (invalidateFails : Bool),
      ClearCache (some uid) invalidateFails = .ok 200 "Cache cleared successfully") := by
  refine ⟨fun f => ?_, fun uid f => ?_⟩ <;> cases f <;> rfl

/-! ## Theorems: progress channel (C8) -/

/-- A non-blocking send never grows the queue beyond the larger of its
current length and the capacity. -/
theorem trySendProgress_length (q : List ProgressUpdate) (u : ProgressUpdate) :
    (trySendProgress q u).length ≤ max q.length progressChannelCapacity := by
  unfold trySendProgress
  split
  · have hlen : (q ++ [u]).length = q.length + 1 := by simp
    rw [hlen]
    exact le_trans (by omega) (le_max_right _ _)
  · exact le_max_left _ _

/-- Any sequence of non-blocking sends keeps the queue below the larger of
its initial length and the capacity. -/
theorem foldl_trySendProgress_length (l : List ProgressUpdate)
    (q : List ProgressUpdate) :
    (l.foldl trySendProgress q).length ≤ max q.length progressChannelCapacity := by
  induction l generalizing q with
  | nil => simp
  | cons u l ih =>
    calc (List.foldl trySendProgress (trySendProgress q u) l).length
        ≤ max (trySendProgress q u).length progressChannelCapacity := ih _
      _ ≤ max (max q.length progressChannelCapacity) progressChannelCapacity := by
          exact max_le_max_right _ (trySendProgress_length q u)
      _ = max q.length progressChannelCapacity := by
          rw [max_assoc, max_self]

/-- C8: the progress channel is created with capacity 10, and every send of
generateWithProgress either enqueues the update when the buffer has room or
drops it immediately when the buffer is full; the producer never blocks, and
no queue ever exceeds the capacity bound. -/
theorem C8_progress_channel_bounded_nonblocking :
    progressChannelCapacity = 10 ∧
    (∀ (q : List ProgressUpdate) (u : ProgressUpdate),
      (q.length < progressChannelCapacity → trySendProgress q u = q ++ [u]) ∧
      (progressChannelCapacity ≤ q.length → trySendProgress q u = q)) ∧
    (∀ (q0 : List ProgressUpdate) (n : Nat) (genOk : Bool),
      ((generateWithProgressUpdates n genOk).foldl trySendProgress q0).length ≤
        max q0.length progressChannelCapacity) := by
  refine ⟨rfl, fun q u => ⟨fun h => ?_, fun h => ?_⟩, fun q0 n genOk => ?_⟩
  · unfold trySendProgress
    rw [if_pos h]
  · unfold trySendProgress
    rw [if_neg (by omega)]
  · exact foldl_trySendProgress_length _ _

/-- Witness for C8 at a concrete queue and update: the send enqueues on an
empty buffer and drops on a full one. -/
theorem C8_progress_channel_bounded_nonblocking_witness :
    trySendProgress [] ⟨"init", 0, "m", ""⟩ = [⟨"init", 0, "m", ""⟩] ∧
    trySendProgress (List.replicate 10 ⟨"init", 0, "m", ""⟩) ⟨"x", 0, "y", ""⟩ =
      List.replicate 10 ⟨"init", 0, "m", ""⟩ := by
  constructor
  · exact (C8_progress_channel_bounded_nonblocking.2.1 [] _).1 (by decide)
  · exact (C8_progress_channel_bounded_nonblocking.2.1 _ _).2 (by decide)

/-! ## Theorems: best-effort cache writes (C7) -/

/-- C7: a failing cache write changes neither the value returned by
GenerateProfile nor by ListUserRepositories, and at most adds one warn-log
line. -/
theorem C7_cache_writes_best_effort :
    (∀ req user cacheGet gen badgeOrder topSort projSorts (f1 f2 : Bool),
      (GenerateProfile req user cacheGet gen badgeOrder topSort projSorts f1).1 =
        (GenerateProfile req user cacheGet gen badgeOrder topSort projSorts f2).1) ∧
    (∀ cached fetched includePrivate (f1 f2 : Bool),
      (ListUserRepositories cached fetched includePrivate f1).1 =
        (ListUserRepositories cached fetched includePrivate f2).1) ∧
    (∀ req user cacheGet gen badgeOrder topSort projSorts,
      (GenerateProfile req user cacheGet gen badgeOrder topSort projSorts true).2 =
          (GenerateProfile req user cacheGet gen badgeOrder topSort projSorts false).2 ∨
        (GenerateProfile req user cacheGet gen badgeOrder topSort projSorts true).2 =
          (GenerateProfile req user cacheGet gen badgeOrder topSort projSorts false).2 ++
            ["Failed to cache profile generation result"]) ∧
    (∀ cached fetched includePrivate,
      (ListUserRepositories cached fetched includePrivate true).2 =
          (ListUserRepositories cached fetched includePrivate false).2 ∨
        (ListUserRepositories cached fetched includePrivate true).2 =
          (ListUserRepositories cached fetched includePrivate false).2 ++
            ["Failed to cache repository list"]) := by
  refine ⟨fun req user cacheGet gen badgeOrder topSort projSorts f1 f2 => ?_,
    fun cached fetched includePrivate f1 f2 => ?_,
    fun req user cacheGet gen badgeOrder topSort projSorts => ?_,
    fun cached fetched includePrivate => ?_⟩
  · unfold GenerateProfile
    by_cases h1 : req.userAPIKey = ""
    · simp [h1]
    by_cases h2 : req.projects.length = 0
    · simp [h1, h2]
    cases h3 : cacheGet (GetCacheKey user.username req.targetRole req.toneOfVoice
      req.projects.length)
    · cases gen
      · simp [h1, h2, h3]
      · cases f1 <;> cases f2 <;> simp [h1, h2, h3]
    · simp [h1, h2, h3]
  · unfold ListUserRepositories
    cases cached
    · cases fetched
      · simp
      · cases f1 <;> cases f2 <;> simp
    · rfl
  · unfold GenerateProfile
    by_cases h1 : req.userAPIKey = ""
    · left; simp [h1]
    by_cases h2 : req.projects.length = 0
    · left; simp [h1, h2]
    cases h3 : cacheGet (GetCacheKey user.username req.targetRole req.toneOfVoice
      req.projects.length)
    · cases gen
      · left; simp [h1, h2, h3]
      · right; simp [h1, h2, h3]
    · left; simp [h1, h2, h3]
  · unfold ListUserRepositories
    cases cached
    · cases fetched
      · left; simp
      · right; simp
    · left; rfl

/-! ## Theorems: profile cache key (C9) -/

/-- C9: the profile cache key depends only on username, target role, tone of
voice and project count; two requests agreeing on those four values share a
key, and GenerateProfile answers any request whose key is cached with the
cached response, whatever its other fields contain. -/
theorem C9_cache_key_collision :
    (∀ (u : GenUser) (req1 req2 : ContentGenerationRequest),
      req1.targetRole = req2.targetRole →
      req1.toneOfVoice = req2.toneOfVoice →
      req1.projects.length = req2.projects.length →
      GetCacheKey u.username req1.targetRole req1.toneOfVoice req1.projects.length =
        GetCacheKey u.username req2.targetRole req2.toneOfVoice req2.projects.length) ∧
    (∀ req user cacheGet gen badgeOrder topSort projSorts (f : Bool)
       (resp : ContentGenerationResponse),
      req.userAPIKey ≠ "" → req.projects.length ≠ 0 →
      cacheGet (GetCacheKey user.username req.targetRole req.toneOfVoice
        req.projects.length) = some resp →
      GenerateProfile req user cacheGet gen badgeOrder topSort projSorts f =
        (.ok resp, [])) := by
  constructor
  · intro u req1 req2 h1 h2 h3
    rw [h1, h2, h3]
  · intro req user cacheGet gen badgeOrder topSort projSorts f resp h1 h2 h3
    unfold GenerateProfile
    simp [h1, h2, h3]

/-- Profile responses cached under the C9 witness key. -/
def c9Resp : ContentGenerationResponse := ⟨"cached markdown", ["go"], [], 0⟩

/-- The cache contents in the C9 witness: exactly one entry. -/
def c9CacheGet : String → Option ContentGenerationResponse :=
  fun k => if k = "profile:v3:alice:Backend Developer:casual:1" then some c9Resp else none

/-- First request of the C9 witness. -/
def c9Req1 : ContentGenerationRequest :=
  ⟨"Backend Developer", "casual", ["go"], ⟨"a@b.c", "", "", ""⟩,
    [⟨none, [("Go", 100)], [], 3, 1⟩], "key1"⟩

/-- Second request of the C9 witness: same role, tone and project count,
different project, skills and contact preferences. -/
def c9Req2 : ContentGenerationRequest :=
  ⟨"Backend Developer", "casual", ["rust"], ⟨"", "", "", "me.dev"⟩,
    [⟨none, [("Rust", 5)], [], 9, 2⟩], "key2"⟩

/-- Witness for C9: the two differing requests share the cache key, and the
second is answered with the response cached for the first. -/
theorem C9_cache_key_collision_witness :
    GetCacheKey "alice" c9Req1.targetRole c9Req1.toneOfVoice c9Req1.projects.length =
      GetCacheKey "alice" c9Req2.targetRole c9Req2.toneOfVoice c9Req2.projects.length ∧
    GenerateProfile c9Req2 ⟨"alice", "", "", "", "", "", ""⟩ c9CacheGet
      (.error "llm never called") [] [] [] false = (.ok c9Resp, []) := by
  constructor
  · exact C9_cache_key_collision.1 ⟨"alice", "", "", "", "", "", ""⟩ c9Req1 c9Req2 rfl rfl rfl
  · exact C9_cache_key_collision.2 c9Req2 ⟨"alice", "", "", "", "", "", ""⟩ c9CacheGet
      (.error "llm never called") [] [] [] false c9Resp (by decide) (by decide) (by decide)

/-! ## Theorems: batch-analyze input validation (C6) -/

/-- C6: with an authenticated token, the BatchAnalyze handler responds
400 Bad Request exactly when the body fails to bind, the repositories list
is empty, or it holds more than 10 entries; whenever a list is passed to
the analysis service it has between 1 and 10 entries. -/
theorem C6_batchAnalyze_validation_and_limit :
    (∀ (t : String) (bind : Option (List String)) analyze,
      ((∃ msg, (BatchAnalyze (some t) bind analyze).1 = .httpError 400 msg) ↔
        bind = none ∨ ∃ rs, bind = some rs ∧ (rs.length = 0 ∨ rs.length > 10))) ∧
    (∀ tok bind analyze rs,
      (BatchAnalyze tok bind analyze).2.1 = some rs →
      0 < rs.length ∧ rs.length ≤ 10) := by
  constructor
  · intro t bind analyze
    cases bind with
    | none => simp [BatchAnalyze]
    | some rs =>
      by_cases h0 : rs.length = 0
      · have hnil : rs = [] := List.length_eq_zero.mp h0
        simp [BatchAnalyze, h0, hnil]
      by_cases h10 : rs.length > 10
      · simp only [BatchAnalyze, h0, h10]
        simp
        omega
      · have hne : rs ≠ [] := by
          intro hnil
          rw [hnil] at h0
          simp at h0
        by_cases herr : (BatchAnalyzeRepositories analyze rs).2.length ≠ 0 <;>
          simp [BatchAnalyze, h0, h10, herr, hne]
  · intro tok bind analyze rs h
    cases tok with
    | none => simp [BatchAnalyze] at h
    | some t =>
      cases bind with
      | none => simp [BatchAnalyze] at h
      | some rs0 =>
        by_cases h0 : rs0.length = 0
        · simp [BatchAnalyze, h0] at h
        by_cases h10 : rs0.length > 10
        · simp [BatchAnalyze, h0, h10] at h
        by_cases herr : (BatchAnalyzeRepositories analyze rs0).2.length ≠ 0 <;>
          · simp [BatchAnalyze, h0, h10, herr] at h
            subst h
            omega

/-- Witness for C6 at concrete inputs: an 11-entry list is rejected with
400 and an accepted 2-entry list reaches the service within the limit. -/
theorem C6_batchAnalyze_validation_and_limit_witness :
    ((∃ msg, (BatchAnalyze (some "tok") (some (List.replicate 11 "a/b"))
        (fun _ _ => .error "e")).1 = .httpError 400 msg) ↔
      (some (List.replicate 11 "a/b") = none ∨
        ∃ rs, some (List.replicate 11 "a/b") = some rs ∧
          (rs.length = 0 ∨ rs.length > 10))) ∧
    (0 < (["a/b", "c/d"] : List String).length ∧
      (["a/b", "c/d"] : List String).length ≤ 10) := by
  constructor
  · exact C6_batchAnalyze_validation_and_limit.1 "tok" (some (List.replicate 11 "a/b"))
      (fun _ _ => .error "e")
  · exact C6_batchAnalyze_validation_and_limit.2 (some "tok") (some ["a/b", "c/d"])
      (fun _ _ => .ok ⟨none, [], [], 0, 0⟩) ["a/b", "c/d"] (by decide)

/-! ## Theorems: joined multi-error batch analysis (C4) -/

/-- What one batch entry yields: the analysis when the name parses as
owner/repo and the analysis call succeeds, none otherwise. -/
def entryAnalysis (analyze : String → String → Except String RepoAnalysis)
    (fullName : String) : Option RepoAnalysis :=
  match goSplitOnChar '/' fullName with
  | [owner, repo] =>
    match analyze owner repo with
    | .ok a => some a
    | .error _ => none
  | _ => none

/-- Looking up the key just inserted. -/
theorem alistLookup_mapInsert_self (m : List (String × RepoAnalysis)) (k : String)
    (v : RepoAnalysis) : alistLookup (mapInsert m k v) k = some v := by
  induction m with
  | nil => simp [mapInsert, alistLookup]
  | cons kv rest ih =>
    obtain ⟨k1, v1⟩ := kv
    by_cases h : k1 = k
    · simp [mapInsert, alistLookup, h]
    · simp [mapInsert, alistLookup, h, ih]

/-- Insertion under one key leaves other lookups unchanged. -/
theorem alistLookup_mapInsert_ne (m : List (String × RepoAnalysis)) (k : String)
    (v : RepoAnalysis) (k2 : String) (h : k2 ≠ k) :
    alistLookup (mapInsert m k v) k2 = alistLookup m k2 := by
  have hne : ¬k = k2 := fun he => h he.symm
  induction m with
  | nil => simp [mapInsert, alistLookup, hne]
  | cons kv rest ih =>
    obtain ⟨k1, v1⟩ := kv
    by_cases h1 : k1 = k
    · subst h1
      simp [mapInsert, alistLookup, hne]
    · by_cases h2 : k1 = k2
      · subst h2
        simp [mapInsert, alistLookup, h1, h]
      · simp [mapInsert, alistLookup, h1, h2, ih]

/-- The error list of the batch fold is empty exactly when it started empty
and every processed entry succeeds. -/
theorem batch_fold_errors (analyze : String → String → Except String RepoAnalysis) :
    ∀ (repos : List String) (acc : List (String × RepoAnalysis) × List String),
      ((repos.foldl (batchStep analyze) acc).2 = [] ↔
        acc.2 = [] ∧ ∀ fn ∈ repos, entryAnalysis analyze fn ≠ none) := by
  intro repos
  induction repos with
  | nil => simp
  | cons fn rest ih =>
    intro acc
    have hstep : ((fn :: rest).foldl (batchStep analyze) acc) =
        rest.foldl (batchStep analyze) (batchStep analyze acc fn) := rfl
    rw [hstep, ih]
    have hcase : ((batchStep analyze acc fn).2 = [] ↔
        acc.2 = [] ∧ entryAnalysis analyze fn ≠ none) := by
      unfold batchStep entryAnalysis
      rcases hs : goSplitOnChar '/' fn with _ | ⟨o, _ | ⟨r, _ | _⟩⟩ <;>
        simp [hs]
      rcases ha : analyze o r with e | a <;> simp [ha]
    rw [hcase]
    simp only [List.mem_cons, forall_eq_or_imp]
    tauto

/-- Entries that never succeed leave a lookup unchanged through the fold. -/
theorem batch_fold_lookup_unchanged
    (analyze : String → String → Except String RepoAnalysis) :
    ∀ (repos : List String) (acc : List (String × RepoAnalysis) × List String)
      (fn : String),
      ¬(fn ∈ repos ∧ entryAnalysis analyze fn ≠ none) →
      alistLookup (repos.foldl (batchStep analyze) acc).1 fn =
        alistLookup acc.1 fn := by
  intro repos
  induction repos with
  | nil => simp
  | cons fn0 rest ih =>
    intro acc fn h
    have hstep : ((fn0 :: rest).foldl (batchStep analyze) acc) =
        rest.foldl (batchStep analyze) (batchStep analyze acc fn0) := rfl
    rw [hstep, ih _ fn (fun hc => h ⟨List.mem_cons_of_mem _ hc.1, hc.2⟩)]
    unfold batchStep
    rcases hs : goSplitOnChar '/' fn0 with _ | ⟨o, _ | ⟨r, _ | _⟩⟩ <;> simp [hs]
    rcases ha : analyze o r with e | a <;> simp [ha]
    by_cases he : fn = fn0
    · exfalso
      apply h
      refine ⟨by simp [he], ?_⟩
      rw [he]
      unfold entryAnalysis
      rw [hs]
      simp [ha]
    · exact alistLookup_mapInsert_ne _ _ _ _ he

/-- A successful entry is found in the results of the fold with its
analysis. -/
theorem batch_fold_lookup_found
    (analyze : String → String → Except String RepoAnalysis) :
    ∀ (repos : List String) (acc : List (String × RepoAnalysis) × List String)
      (fn : String) (a : RepoAnalysis),
      fn ∈ repos → entryAnalysis analyze fn = some a →
      alistLookup (repos.foldl (batchStep analyze) acc).1 fn = some a := by
  intro repos
  induction repos with
  | nil => simp
  | cons fn0 rest ih =>
    intro acc fn a hmem ha
    have hstep : ((fn0 :: rest).foldl (batchStep analyze) acc) =
        rest.foldl (batchStep analyze) (batchStep analyze acc fn0) := rfl
    rw [hstep]
    by_cases hr : fn ∈ rest
    · exact ih _ fn a hr ha
    have he : fn = fn0 := by
      rcases List.mem_cons.mp hmem with h | h
      · exact h
      · exact absurd h hr
    subst he
    rw [batch_fold_lookup_unchanged analyze rest _ fn (fun hc => hr hc.1)]
    unfold entryAnalysis at ha
    rcases hs : goSplitOnChar '/' fn with _ | ⟨o, _ | ⟨r, _ | _⟩⟩ <;>
      rw [hs] at ha
    · simp at ha
    · simp at ha
    · simp only [] at ha
      rcases han : analyze o r with e | a2 <;> rw [han] at ha <;> simp at ha
      subst ha
      unfold batchStep
      rw [hs]
      simp only [han]
      exact alistLookup_mapInsert_self _ _ _
    · simp at ha

/-- C4: BatchAnalyzeRepositories returns exactly the successful analyses in
its result map, the joined error is nil exactly when every entry succeeded,
and the handler receives the partial results together with that joined
error. -/
theorem C4_batch_joined_errors_and_partial_results :
    ∀ analyze (repos : List String),
      ((BatchAnalyzeRepositories analyze repos).2 = [] ↔
        ∀ fn ∈ repos, entryAnalysis analyze fn ≠ none) ∧
      (∀ fn a,
        alistLookup (BatchAnalyzeRepositories analyze repos).1 fn = some a ↔
          (fn ∈ repos ∧ entryAnalysis analyze fn = some a)) ∧
      (∀ t : String, 0 < repos.length → repos.length ≤ 10 →
        (BatchAnalyze (some t) (some repos) analyze).2.2 =
          some (BatchAnalyzeRepositories analyze repos)) := by
  intro analyze repos
  refine ⟨?_, fun fn a => ⟨fun h => ?_, fun h => ?_⟩, fun t h1 h10 => ?_⟩
  · unfold BatchAnalyzeRepositories
    rw [batch_fold_errors]
    simp
  · by_cases hc : fn ∈ repos ∧ entryAnalysis analyze fn ≠ none
    · rcases ho : entryAnalysis analyze fn with _ | a2
      · exact absurd ho hc.2
      · have hfound := batch_fold_lookup_found analyze repos ([], []) fn a2 hc.1 ho
        unfold BatchAnalyzeRepositories at h
        rw [hfound] at h
        exact ⟨hc.1, h⟩
    · have := batch_fold_lookup_unchanged analyze repos ([], []) fn hc
      unfold BatchAnalyzeRepositories at h
      rw [this] at h
      exact absurd h (by simp [alistLookup])
  · exact batch_fold_lookup_found analyze repos ([], []) fn a h.1 h.2
  · unfold BatchAnalyze
    have h0 : ¬repos.length = 0 := by omega
    have hgt : ¬repos.length > 10 := by omega
    by_cases herr : (BatchAnalyzeRepositories analyze repos).2.length ≠ 0 <;>
      simp [h0, hgt, herr]

/-- The analysis stub of the C4 witness. -/
def c4Analyze : String → String → Except String RepoAnalysis :=
  fun _ repo => if repo = "bad" then .error "boom" else .ok ⟨none, [("Go", 1)], [], 2, 1⟩

/-- The repositories list of the C4 witness: one success, one failure, one
malformed name. -/
def c4Repos : List String := ["alice/good", "alice/bad", "noslash"]

/-- Witness for C4 at a concrete batch: the joined-error characterisation,
the lookup of the surviving entry, and the pair received by the handler. -/
theorem C4_batch_joined_errors_and_partial_results_witness :
    ((BatchAnalyzeRepositories c4Analyze c4Repos).2 = [] ↔
      ∀ fn ∈ c4Repos, entryAnalysis c4Analyze fn ≠ none) ∧
    (alistLookup (BatchAnalyzeRepositories c4Analyze c4Repos).1 "alice/good" =
        some ⟨none, [("Go", 1)], [], 2, 1⟩ ↔
      ("alice/good" ∈ c4Repos ∧
        entryAnalysis c4Analyze "alice/good" = some ⟨none, [("Go", 1)], [], 2, 1⟩)) ∧
    (BatchAnalyze (some "tok") (some c4Repos) c4Analyze).2.2 =
      some (BatchAnalyzeRepositories c4Analyze c4Repos) := by
  refine ⟨(C4_batch_joined_errors_and_partial_results c4Analyze c4Repos).1,
    (C4_batch_joined_errors_and_partial_results c4Analyze c4Repos).2.1 _ _,
    (C4_batch_joined_errors_and_partial_results c4Analyze c4Repos).2.2 "tok"
      (by decide) (by decide)⟩

/-! ## Theorems: content-assembly determinism (C1)

One run of GenerateProfile assembles the markdown from the badge list in
the order the Go runtime happens to iterate the badge map (a permutation
of the map contents chosen anew on every run), and from the language
rankings its collectTopLanguages calls produce by ranging a randomized
totals map and sorting with the unstable sort.Slice (any weakly descending
permutation of the totals, tied byte counts in run-dependent order). -/

/-- The markdown a run of the pipeline produces from fixed user, request
and LLM batch response, given the run's badge iteration order and the
run's sort.Slice outcomes (top-level, and per project index). -/
def assembleProfileMarkdown (user : GenUser) (req : ContentGenerationRequest)
    (batch : BatchProfileResponse) (badgeOrder : List Badge)
    (topSort : List (String × Nat))
    (projSorts : List (List (String × Nat))) : String :=
  buildMarkdown user req batch.profilePitch
    (buildSummaries req.projects batch.projectSummaries) badgeOrder
    ⟨req.targetRole, req.emphasizedSkills, req.toneOfVoice, req.contactPrefs⟩
    topSort projSorts

/-- The fixed user of the C1 counterexample. -/
def c1User : GenUser := ⟨"alice", "", "", "", "", "", ""⟩

/-- The fixed generation request of the C1 counterexample: one project with
two tied language byte counts, and two emphasized skills that map to two
catalog badges. -/
def c1Req : ContentGenerationRequest :=
  ⟨"", "", ["go", "python"], ⟨"", "", "", ""⟩,
    [⟨none, [("Go", 100), ("Python", 100)], [], 0, 0⟩], "k"⟩

/-- The fixed LLM batch response of the C1 counterexample. -/
def c1Batch : BatchProfileResponse := ⟨"pitch", [], [], 0⟩

/-- Badge-map iteration order of the first run. -/
def c1Order1 : List Badge := [⟨"Go", "00ADD8"⟩, ⟨"Python", "3776AB"⟩]

/-- Badge-map iteration order of the second run. -/
def c1Order2 : List Badge := [⟨"Python", "3776AB"⟩, ⟨"Go", "00ADD8"⟩]

/-- Top-level sort.Slice outcome of the first run: the tied languages in
one order. -/
def c1Sort1 : List (String × Nat) := [("Go", 100), ("Python", 100)]

/-- Top-level sort.Slice outcome of the second run: the tied languages the
other way round; equally possible, since sort.Slice is unstable and the
totals map is ranged in randomized order. -/
def c1Sort2 : List (String × Nat) := [("Python", 100), ("Go", 100)]

/-- A per-project sort.Slice outcome, shared by the compared runs. -/
def c1ProjSorts : List (List (String × Nat)) := [[("Go", 100), ("Python", 100)]]

set_option maxRecDepth 100000 in
/-- Counterexample to C1, from either source of map-iteration randomness
alone: for a fixed user, request and LLM batch response, (a) two
legitimate iteration orders of the badge map built by
buildBadgesFromProjectData yield different Markdown documents even with
identical language rankings, and (b) two legitimate sort.Slice outcomes on
the same language totals (tied byte counts) yield different Markdown
documents even with identical badge orders. The assembled document is
therefore not identical across runs. -/
theorem C1_determinism_counterexample :
    (c1Order1.Perm (buildBadgesFromProjectData c1Req.projects
        c1Batch.extractedSkills c1Req.emphasizedSkills) ∧
      c1Order2.Perm (buildBadgesFromProjectData c1Req.projects
        c1Batch.extractedSkills c1Req.emphasizedSkills) ∧
      SortSliceOutcome (langTotals c1Req.projects) c1Sort1 ∧
      SortSliceOutcome (langTotals c1Req.projects)
        (c1ProjSorts.getD 0 []) ∧
      assembleProfileMarkdown c1User c1Req c1Batch c1Order1 c1Sort1 c1ProjSorts ≠
        assembleProfileMarkdown c1User c1Req c1Batch c1Order2 c1Sort1 c1ProjSorts) ∧
    (SortSliceOutcome (langTotals c1Req.projects) c1Sort2 ∧
      assembleProfileMarkdown c1User c1Req c1Batch c1Order1 c1Sort1 c1ProjSorts ≠
        assembleProfileMarkdown c1User c1Req c1Batch c1Order1 c1Sort2 c1ProjSorts) := by
  exact ⟨⟨by decide, by decide, by decide, by decide, by decide⟩,
    ⟨by decide, by decide⟩⟩

/-- C1 amended: the nondeterministic choices of a run are constrained —
any two runs produce badge lists that are permutations of each other, and
language rankings (top-level and per project) that are permutations of the
same deterministic byte totals — and the Markdown document is identical
across any two runs that agree on the badge-map iteration order and on the
sort.Slice outcome of every collectTopLanguages call. -/
theorem C1_determinism_mod_iteration_order :
    ∀ (user : GenUser) (req : ContentGenerationRequest)
      (batch : BatchProfileResponse) (o1 o2 : List Badge)
      (t1 t2 : List (String × Nat)) (ps1 ps2 : List (List (String × Nat))),
      o1.Perm (buildBadgesFromProjectData req.projects batch.extractedSkills
        req.emphasizedSkills) →
      o2.Perm (buildBadgesFromProjectData req.projects batch.extractedSkills
        req.emphasizedSkills) →
      SortSliceOutcome (langTotals req.projects) t1 →
      SortSliceOutcome (langTotals req.projects) t2 →
      (∀ i, i < req.projects.length →
        SortSliceOutcome (langTotals [req.projects.getD i ⟨none, [], [], 0, 0⟩])
          (ps1.getD i [])) →
      (∀ i, i < req.projects.length →
        SortSliceOutcome (langTotals [req.projects.getD i ⟨none, [], [], 0, 0⟩])
          (ps2.getD i [])) →
      o1.Perm o2 ∧ t1.Perm t2 ∧
      (∀ i, i < req.projects.length → (ps1.getD i []).Perm (ps2.getD i [])) ∧
      (o1 = o2 → t1 = t2 → ps1 = ps2 →
        assembleProfileMarkdown user req batch o1 t1 ps1 =
          assembleProfileMarkdown user req batch o2 t2 ps2) := by
  intro user req batch o1 o2 t1 t2 ps1 ps2 h1 h2 ht1 ht2 hp1 hp2
  exact ⟨h1.trans h2.symm, ht1.1.trans ht2.1.symm,
    fun i hi => ((hp1 i hi).1).trans ((hp2 i hi).1).symm,
    fun ho ht hp => by rw [ho, ht, hp]⟩

/-- Witness for the amended C1 at the concrete counterexample inputs. -/
theorem C1_determinism_mod_iteration_order_witness :
    c1Order1.Perm c1Order2 ∧ c1Sort1.Perm c1Sort2 ∧
    (∀ i, i < c1Req.projects.length →
      (c1ProjSorts.getD i []).Perm (c1ProjSorts.getD i [])) ∧
    (c1Order1 = c1Order2 → c1Sort1 = c1Sort2 → c1ProjSorts = c1ProjSorts →
      assembleProfileMarkdown c1User c1Req c1Batch c1Order1 c1Sort1 c1ProjSorts =
        assembleProfileMarkdown c1User c1Req c1Batch c1Order2 c1Sort2 c1ProjSorts) :=
  C1_determinism_mod_iteration_order c1User c1Req c1Batch c1Order1 c1Order2
    c1Sort1 c1Sort2 c1ProjSorts c1ProjSorts
    (by decide) (by decide) (by decide) (by decide) (by decide) (by decide)

/-! ## Theorems: auth failures map to 401 (C5) -/

/-- The token of a well-formed Authorization header: exactly two
space-separated parts, the first being Bearer. -/
def bearerToken (hdr : List Nat) : Option (List Nat) :=
  match stringsSplit spaceByte hdr with
  | [scheme, token] => if scheme = strBytes "Bearer" then some token else none
  | _ => none

/-- The failure condition enumerated by the specification for C5: header
missing or not Bearer-shaped, token invalid, token expired, non-empty JTI
whose revocation check does not come back ok-and-false, or failing user
lookup. -/
def specAuthFailure (secret hdr : List Nat) (now : Int)
    (revCheck : List Nat → Except Unit Bool)
    (userLookup : Int → Option UserRec) : Prop :=
  hdr = [] ∨ bearerToken hdr = none ∨
  ∃ tok, bearerToken hdr = some tok ∧
    (validateJWT tok secret = none ∨
     ∃ cl, validateJWT tok secret = some cl ∧
       (now > cl.expiresAt ∨
        (cl.jti ≠ [] ∧ revCheck cl.jti ≠ .ok false) ∨
        userLookup cl.userID = none))

/-- C5: AuthMiddleware answers 401 Unauthorized exactly under the
enumerated failure conditions, and otherwise calls the next handler with
the user data set in the context. -/
theorem C5_authMiddleware_401_characterization :
    ∀ secret hdr now revCheck userLookup,
      (AuthMiddleware secret hdr now revCheck userLookup = .unauthorized ↔
        specAuthFailure secret hdr now revCheck userLookup) ∧
      (AuthMiddleware secret hdr now revCheck userLookup = .unauthorized ∨
        ∃ tok cl user, bearerToken hdr = some tok ∧
          validateJWT tok secret = some cl ∧
          userLookup cl.userID = some user ∧
          AuthMiddleware secret hdr now revCheck userLookup =
            .next user cl.userID cl.username user.accessToken cl.jti cl.expiresAt) := by
  intro secret hdr now revCheck userLookup
  by_cases h0 : hdr = []
  · refine ⟨?_, Or.inl ?_⟩ <;> simp [AuthMiddleware, specAuthFailure, h0]
  rcases hsp : stringsSplit spaceByte hdr with _ | ⟨s0, _ | ⟨s1, _ | _⟩⟩
  · refine ⟨?_, Or.inl ?_⟩ <;>
      simp [AuthMiddleware, specAuthFailure, bearerToken, h0, hsp]
  · refine ⟨?_, Or.inl ?_⟩ <;>
      simp [AuthMiddleware, specAuthFailure, bearerToken, h0, hsp]
  · by_cases hb : s0 = strBytes "Bearer"
    · subst hb
      cases hv : validateJWT s1 secret with
      | none =>
        refine ⟨?_, Or.inl ?_⟩ <;>
          simp [AuthMiddleware, specAuthFailure, bearerToken, h0, hsp, hv]
      | some cl =>
        by_cases hexp : now > cl.expiresAt
        · refine ⟨?_, Or.inl ?_⟩ <;>
            simp [AuthMiddleware, specAuthFailure, bearerToken, h0, hsp, hv, hexp]
        by_cases hjti : cl.jti = []
        · cases hu : userLookup cl.userID with
          | none =>
            refine ⟨?_, Or.inl ?_⟩ <;>
              simp [AuthMiddleware, authFinish, specAuthFailure, bearerToken, h0,
                hsp, hv, hexp, hjti, hu]
          | some u =>
            refine ⟨?_, Or.inr ⟨s1, cl, u, by simp [bearerToken, hsp], hv, hu, ?_⟩⟩ <;>
              simp [AuthMiddleware, authFinish, specAuthFailure, bearerToken, h0,
                hsp, hv, hexp, hjti, hu]
        · cases hrc : revCheck cl.jti with
          | error e =>
            refine ⟨?_, Or.inl ?_⟩ <;>
              simp [AuthMiddleware, specAuthFailure, bearerToken, h0, hsp, hv,
                hexp, hjti, hrc]
          | ok b =>
            cases b with
            | true =>
              refine ⟨?_, Or.inl ?_⟩ <;>
                simp [AuthMiddleware, specAuthFailure, bearerToken, h0, hsp, hv,
                  hexp, hjti, hrc]
            | false =>
              cases hu : userLookup cl.userID with
              | none =>
                refine ⟨?_, Or.inl ?_⟩ <;>
                  simp [AuthMiddleware, authFinish, specAuthFailure, bearerToken,
                    h0, hsp, hv, hexp, hjti, hrc, hu]
              | some u =>
                refine ⟨?_,
                  Or.inr ⟨s1, cl, u, by simp [bearerToken, hsp], hv, hu, ?_⟩⟩ <;>
                  simp [AuthMiddleware, authFinish, specAuthFailure, bearerToken,
                    h0, hsp, hv, hexp, hjti, hrc, hu]
    · refine ⟨?_, Or.inl ?_⟩ <;>
        simp [AuthMiddleware, specAuthFailure, bearerToken, h0, hsp, hb]
  · refine ⟨?_, Or.inl ?_⟩ <;>
      simp [AuthMiddleware, specAuthFailure, bearerToken, h0, hsp]

/-! ## Theorems: revocation is effective (C2) -/

/-- The sessions table currently records the JTI as revoked with the given
expiry. -/
def RevokedCurrently (store : SessionStore) (jti : List Nat) (e : Int) : Prop :=
  storeLookup store (revokedKey jti) =
    some ⟨strBytes "revoked_token", strBytes "revoked", e⟩

/-- Every row stored under a revoked-token id carries the revoked_token
state type (holds for the empty table and is preserved by every
operation). -/
def RevokedKeysTyped (store : SessionStore) : Prop :=
  ∀ kr ∈ store, (∃ jti, kr.1 = revokedKey jti) →
    kr.2.stateType = strBytes "revoked_token"

/-- A successful lookup comes from a table entry. -/
theorem storeLookup_mem (store : SessionStore) (id : List Nat) (r : SessionRecord)
    (h : storeLookup store id = some r) : (id, r) ∈ store := by
  induction store with
  | nil => simp [storeLookup] at h
  | cons kr rest ih =>
    obtain ⟨k2, r2⟩ := kr
    by_cases he : k2 = id
    · subst he
      simp [storeLookup] at h
      simp [h]
    · simp [storeLookup, he] at h
      simp [ih h]

/-- Upserting a fresh id stores the inserted row under it. -/
theorem storeLookup_sqlUpsert_fresh (store : SessionStore) (id : List Nat)
    (rec : SessionRecord) (h : storeLookup store id = none) :
    storeLookup (sqlUpsert store id rec) id = some rec := by
  induction store with
  | nil => simp [sqlUpsert, storeLookup]
  | cons kr rest ih =>
    obtain ⟨k2, r2⟩ := kr
    by_cases he : k2 = id
    · subst he
      simp [storeLookup] at h
    · simp [storeLookup, he] at h
      simp [sqlUpsert, storeLookup, he, ih h]

/-- Upserting a present id keeps its state type and takes the new value and
expiry. -/
theorem storeLookup_sqlUpsert_update (store : SessionStore) (id : List Nat)
    (rec : SessionRecord) (r0 : SessionRecord)
    (h : storeLookup store id = some r0) :
    storeLookup (sqlUpsert store id rec) id =
      some ⟨r0.stateType, rec.stateValue, rec.expiresAt⟩ := by
  induction store with
  | nil => simp [storeLookup] at h
  | cons kr rest ih =>
    obtain ⟨k2, r2⟩ := kr
    by_cases he : k2 = id
    · subst he
      simp [storeLookup] at h
      subst h
      simp [sqlUpsert, storeLookup]
    · simp [storeLookup, he] at h
      simp [sqlUpsert, storeLookup, he, ih h]

/-- Upserting one id leaves every other lookup unchanged. -/
theorem storeLookup_sqlUpsert_ne (store : SessionStore) (id id2 : List Nat)
    (rec : SessionRecord) (h : id2 ≠ id) :
    storeLookup (sqlUpsert store id rec) id2 = storeLookup store id2 := by
  have hne : ¬id = id2 := fun he => h he.symm
  induction store with
  | nil => simp [sqlUpsert, storeLookup, hne]
  | cons kr rest ih =>
    obtain ⟨k2, r2⟩ := kr
    by_cases he : k2 = id
    · subst he
      simp [sqlUpsert, storeLookup, hne]
    · by_cases he2 : k2 = id2
      · subst he2
        simp [sqlUpsert, storeLookup, he]
      · simp [sqlUpsert, storeLookup, he, he2, ih]

/-- A kept entry survives a filter at the same lookup position. -/
theorem storeLookup_filter (store : SessionStore) (p : List Nat × SessionRecord → Bool)
    (id : List Nat) (r : SessionRecord) (h : storeLookup store id = some r)
    (hp : p (id, r) = true) :
    storeLookup (store.filter p) id = some r := by
  induction store with
  | nil => simp [storeLookup] at h
  | cons kr rest ih =>
    obtain ⟨k2, r2⟩ := kr
    by_cases he : k2 = id
    · subst he
      simp [storeLookup] at h
      subst h
      simp [List.filter, hp, storeLookup]
    · simp [storeLookup, he] at h
      by_cases hk : p (k2, r2) <;> simp [List.filter, hk, storeLookup, he, ih h]

/-- Membership after an upsert: an old entry, the fresh insert, or the
value-and-expiry update of an old entry under the upserted id. -/
theorem mem_sqlUpsert (store : SessionStore) (id : List Nat) (rec : SessionRecord)
    (kr : List Nat × SessionRecord) (h : kr ∈ sqlUpsert store id rec) :
    kr ∈ store ∨ kr = (id, rec) ∨
      (∃ r0, (id, r0) ∈ store ∧
        kr = (id, ⟨r0.stateType, rec.stateValue, rec.expiresAt⟩)) := by
  induction store with
  | nil =>
    simp [sqlUpsert] at h
    simp [h]
  | cons kr2 rest ih =>
    obtain ⟨k2, r2⟩ := kr2
    by_cases he : k2 = id
    · subst he
      simp [sqlUpsert] at h
      rcases h with h | h
      · right; right
        exact ⟨r2, by simp, by simp [h]⟩
      · left
        simp [h]
    · simp [sqlUpsert, he] at h
      rcases h with h | h
      · left
        simp [h]
      · rcases ih h with h2 | h2 | ⟨r0, hm, hk⟩
        · left
          simp [h2]
        · right; left; exact h2
        · right; right
          exact ⟨r0, by simp [hm], hk⟩

/-- The oauth-state id space and the revoked-token id space are disjoint. -/
theorem oauthKey_ne_revokedKey (s jti : List Nat) : oauthKey s ≠ revokedKey jti := by
  intro h
  have h1 : oauthKey s = 111 :: (strBytes "auth_state:" ++ s) := rfl
  have h2 : revokedKey jti = 114 :: (strBytes "evoked:" ++ jti) := rfl
  rw [h1, h2] at h
  exact absurd (List.head_eq_of_cons_eq h) (by decide)

/-- Revoked-token ids determine the JTI. -/
theorem revokedKey_inj (j1 j2 : List Nat) (h : revokedKey j1 = revokedKey j2) :
    j1 = j2 := by
  unfold revokedKey at h
  exact List.append_cancel_left h

set_option linter.unnecessarySeqFocus false in
/-- C2: Logout records the JTI via RevokeToken with the token's expiry;
every session-table operation keeps the revocation record unless a cleanup
runs strictly after the recorded expiry; the typing invariant of revoked
rows is preserved; and while the recorded expiry is in the future,
AuthMiddleware rejects every request whose token carries the JTI with 401
Unauthorized. -/
theorem C2_revocation_is_effective :
    (∀ (store : SessionStore) (jti : List Nat) (e : Int),
      RevokedKeysTyped store → jti ≠ [] →
      (Logout store (some jti) (some e)).1 = .ok 200 "Logged out successfully" ∧
      RevokedCurrently (Logout store (some jti) (some e)).2 jti e) ∧
    (∀ (store : SessionStore) (op : SessionOp) (jti : List Nat) (e : Int),
      RevokedCurrently store jti e →
      (∃ e2, RevokedCurrently (applySessionOp store op) jti e2) ∨
        (∃ t, op = .cleanup t ∧ e < t)) ∧
    (∀ (store : SessionStore) (op : SessionOp),
      RevokedKeysTyped store → RevokedKeysTyped (applySessionOp store op)) ∧
    (∀ (store : SessionStore) (jti : List Nat) (e now : Int)
       (secret hdr tok : List Nat) (cl : JWTClaims)
       (userLookup : Int → Option UserRec),
      RevokedCurrently store jti e → now < e →
      bearerToken hdr = some tok → validateJWT tok secret = some cl →
      cl.jti = jti → jti ≠ [] →
      AuthMiddleware secret hdr now (fun j => .ok (IsTokenRevoked store now j))
        userLookup = .unauthorized) := by
  refine ⟨?_, ?_, ?_, ?_⟩
  · -- Logout revokes
    intro store jti e htyped hjti
    have hred : Logout store (some jti) (some e) =
        (.ok 200 "Logged out successfully", RevokeToken store jti e) := by
      simp [Logout, hjti]
    rw [hred]
    refine ⟨rfl, ?_⟩
    unfold RevokedCurrently RevokeToken
    cases hl : storeLookup store (revokedKey jti) with
    | none => rw [storeLookup_sqlUpsert_fresh _ _ _ hl]
    | some r0 =>
      rw [storeLookup_sqlUpsert_update _ _ _ _ hl]
      have ht : r0.stateType = strBytes "revoked_token" :=
        htyped _ (storeLookup_mem _ _ _ hl) ⟨jti, rfl⟩
      rw [ht]
  · -- the record persists
    intro store op jti e hrev
    cases op with
    | createOAuthState s e2 =>
      left
      refine ⟨e, ?_⟩
      unfold RevokedCurrently applySessionOp CreateOAuthState
      rw [storeLookup_sqlUpsert_ne _ _ _ _
        (fun h => oauthKey_ne_revokedKey s jti h.symm)]
      exact hrev
    | deleteOAuthState s =>
      left
      refine ⟨e, ?_⟩
      unfold RevokedCurrently applySessionOp DeleteOAuthState
      apply storeLookup_filter _ _ _ _ hrev
      have hne : ¬strBytes "revoked_token" = strBytes "oauth_state" := by decide
      simp [hne]
    | revokeToken j2 e2 =>
      by_cases hj : j2 = jti
      · subst hj
        left
        refine ⟨e2, ?_⟩
        unfold RevokedCurrently applySessionOp RevokeToken
        rw [storeLookup_sqlUpsert_update _ _ _ _ hrev]
      · left
        refine ⟨e, ?_⟩
        unfold RevokedCurrently applySessionOp RevokeToken
        rw [storeLookup_sqlUpsert_ne _ _ _ _
          (fun h => hj (revokedKey_inj _ _ h).symm)]
        exact hrev
    | cleanup t =>
      by_cases ht : e < t
      · right
        exact ⟨t, rfl, ht⟩
      · left
        refine ⟨e, ?_⟩
        unfold RevokedCurrently applySessionOp CleanupExpiredSessions
        apply storeLookup_filter _ _ _ _ hrev
        simp
        omega
  · -- the typing invariant is preserved
    intro store op htyped
    cases op with
    | createOAuthState s e2 =>
      intro kr hm hk
      rcases mem_sqlUpsert _ _ _ _ hm with h | h | ⟨r0, hm0, hk0⟩
      · exact htyped _ h hk
      · rcases hk with ⟨jti, hj⟩
        rw [h] at hj
        exact absurd hj (oauthKey_ne_revokedKey s jti)
      · rcases hk with ⟨jti, hj⟩
        rw [hk0] at hj
        exact absurd hj (oauthKey_ne_revokedKey s jti)
    | deleteOAuthState s =>
      intro kr hm hk
      exact htyped _ (List.mem_filter.mp hm).1 hk
    | revokeToken j2 e2 =>
      intro kr hm hk
      rcases mem_sqlUpsert _ _ _ _ hm with h | h | ⟨r0, hm0, hk0⟩
      · exact htyped _ h hk
      · rw [h]
      · have ht := htyped _ hm0 ⟨j2, rfl⟩
        rw [hk0]
        exact ht
    | cleanup t =>
      intro kr hm hk
      exact htyped _ (List.mem_filter.mp hm).1 hk
  · -- the middleware rejects the revoked JTI
    intro store jti e now secret hdr tok cl userLookup hrev hnow hbear hval hjti hne
    have hhdr : hdr ≠ [] := by
      intro h
      rw [h] at hbear
      simp [bearerToken, stringsSplit] at hbear
    unfold AuthMiddleware
    rw [if_neg hhdr]
    unfold bearerToken at hbear
    rcases hsp : stringsSplit spaceByte hdr with _ | ⟨s0, _ | ⟨s1, _ | _⟩⟩ <;>
      rw [hsp] at hbear <;> simp at hbear
    rcases hbear with ⟨hs0, hs1⟩
    subst hs1
    subst hs0
    have hrevoked : IsTokenRevoked store now jti = true := by
      unfold IsTokenRevoked
      rw [hrev]
      simp
      omega
    by_cases hexp : now > cl.expiresAt <;>
      simp [hval, hexp, hjti, hne, hrevoked]

/-- The 16 random JTI bytes of the C2 witness token. -/
def c2JtiBytes : List Nat := [0, 1, 2, 3, 4, 5, 6, 7, 8, 9, 10, 11, 12, 13, 14, 15]

/-- The JTI of the C2 witness token. -/
def c2Jti : List Nat := hexEncodeBytes c2JtiBytes

/-- The C2 witness token: issued at second 1, expiring at second 3. -/
def c2Tok : List Nat :=
  GenerateJWT 7 (strBytes "alice") (strBytes "secret") 1000000000 2000000000 c2JtiBytes

/-- The claims carried by the C2 witness token. -/
def c2Claims : JWTClaims := ⟨7, strBytes "alice", c2Jti, 3⟩

/-- The sessions table of the C2 witness after the revocation. -/
def c2Store : SessionStore := RevokeToken [] c2Jti 3

set_option maxRecDepth 100000 in
/-- Witness for C2 at a concrete store and token: Logout revokes the JTI,
the record survives a cleanup at second 2, the typing invariant holds, and
a request at second 2 carrying the revoked JTI is rejected. -/
theorem C2_revocation_is_effective_witness :
    ((Logout [] (some c2Jti) (some 3)).1 = .ok 200 "Logged out successfully" ∧
      RevokedCurrently (Logout [] (some c2Jti) (some 3)).2 c2Jti 3) ∧
    ((∃ e2, RevokedCurrently (applySessionOp c2Store (.cleanup 2)) c2Jti e2) ∨
      (∃ t, SessionOp.cleanup 2 = SessionOp.cleanup t ∧ (3 : Int) < t)) ∧
    RevokedKeysTyped (applySessionOp [] (.revokeToken c2Jti 3)) ∧
    AuthMiddleware (strBytes "secret") (strBytes "Bearer " ++ c2Tok) 2
      (fun j => .ok (IsTokenRevoked c2Store 2 j)) (fun _ => none) =
      .unauthorized := by
  refine ⟨?_, ?_, ?_, ?_⟩
  · exact C2_revocation_is_effective.1 [] c2Jti 3
      (by simp [RevokedKeysTyped]) (by decide)
  · exact C2_revocation_is_effective.2.1 c2Store (.cleanup 2) c2Jti 3
      (by unfold RevokedCurrently; decide)
  · exact C2_revocation_is_effective.2.2.1 [] (.revokeToken c2Jti 3)
      (by simp [RevokedKeysTyped])
  · exact C2_revocation_is_effective.2.2.2 c2Store c2Jti 3 2 (strBytes "secret")
      (strBytes "Bearer " ++ c2Tok) c2Tok c2Claims (fun _ => none)
      (by unfold RevokedCurrently; decide) (by decide) (by decide) (by decide)
      (by decide) (by decide)

/-! ## Theorems: JWT issuance/validation round trip (C3)

Supporting lemmas: base64url is a retraction, its alphabet avoids the dot,
splitting recovers the three token segments, and the JSON payload
serialisation round-trips. -/

/-- The alphabet map is inverted by its value table on every sextet. -/
theorem b64_roundtrip_fin : ∀ v : Fin 64, b64Val (b64Char v.val) = some v.val := by
  decide

/-- b64Val undoes b64Char below 64. -/
theorem b64Val_b64Char (v : Nat) (h : v < 64) : b64Val (b64Char v) = some v :=
  b64_roundtrip_fin ⟨v, h⟩

/-- Decoding inverts encoding on byte lists. -/
theorem base64url_roundtrip : ∀ (bs : List Nat), (∀ b ∈ bs, b < 256) →
    base64urlDecode (base64urlEncode bs) = some bs
  | [], _ => rfl
  | [a], h => by
    have ha : a < 256 := h a (by simp)
    simp only [base64urlEncode, base64urlDecode,
      b64Val_b64Char (a / 4) (by omega), b64Val_b64Char (a % 4 * 16) (by omega)]
    rw [if_pos (by omega)]
    have he : a / 4 * 4 + a % 4 * 16 / 16 = a := by omega
    rw [he]
  | [a, b], h => by
    have ha : a < 256 := h a (by simp)
    have hb : b < 256 := h b (by simp)
    simp only [base64urlEncode, base64urlDecode,
      b64Val_b64Char (a / 4) (by omega),
      b64Val_b64Char (a % 4 * 16 + b / 16) (by omega),
      b64Val_b64Char (b % 16 * 4) (by omega)]
    rw [if_pos (by omega)]
    have h1 : a / 4 * 4 + (a % 4 * 16 + b / 16) / 16 = a := by omega
    have h2 : (a % 4 * 16 + b / 16) % 16 * 16 + b % 16 * 4 / 4 = b := by omega
    rw [h1, h2]
  | a :: b :: c :: rest, h => by
    have ha : a < 256 := h a (by simp)
    have hb : b < 256 := h b (by simp)
    have hc : c < 256 := h c (by simp)
    have ih := base64url_roundtrip rest (fun x hx => h x (by simp [hx]))
    simp only [base64urlEncode, base64urlDecode,
      b64Val_b64Char (a / 4) (by omega),
      b64Val_b64Char (a % 4 * 16 + b / 16) (by omega),
      b64Val_b64Char (b % 16 * 4 + c / 64) (by omega),
      b64Val_b64Char (c % 64) (by omega), ih]
    have h1 : a / 4 * 4 + (a % 4 * 16 + b / 16) / 16 = a := by omega
    have h2 : (a % 4 * 16 + b / 16) % 16 * 16 + (b % 16 * 4 + c / 64) / 4 = b := by
      omega
    have h3 : (b % 16 * 4 + c / 64) % 4 * 64 + c % 64 = c := by omega
    rw [h1, h2, h3]

/-- No alphabet byte is the dot. -/
theorem b64Char_ne_dot (v : Nat) : b64Char v ≠ dotByte := by
  unfold b64Char dotByte
  split
  · omega
  split
  · omega
  split
  · omega
  split <;> omega

/-- Encoded segments never contain the dot separator. -/
theorem dot_not_mem_base64urlEncode : ∀ (bs : List Nat),
    dotByte ∉ base64urlEncode bs
  | [] => by simp [base64urlEncode]
  | [a] => by
    simp [base64urlEncode]
    exact ⟨(b64Char_ne_dot _).symm, (b64Char_ne_dot _).symm⟩
  | [a, b] => by
    simp [base64urlEncode]
    exact ⟨(b64Char_ne_dot _).symm, (b64Char_ne_dot _).symm, (b64Char_ne_dot _).symm⟩
  | a :: b :: c :: rest => by
    have ih := dot_not_mem_base64urlEncode rest
    simp [base64urlEncode]
    exact ⟨(b64Char_ne_dot _).symm, (b64Char_ne_dot _).symm, (b64Char_ne_dot _).symm,
      (b64Char_ne_dot _).symm, ih⟩

/-- Splitting a separator-free list yields one chunk. -/
theorem stringsSplit_sepFree (sep : Nat) (s : List Nat) (h : sep ∉ s) :
    stringsSplit sep s = [s] := by
  induction s with
  | nil => rfl
  | cons b rest ih =>
    have hb : ¬b = sep := fun he => h (by simp [he])
    have hr : sep ∉ rest := fun hm => h (by simp [hm])
    simp only [stringsSplit, if_neg hb, ih hr]

/-- Splitting past a separator-free head chunk. -/
theorem stringsSplit_append (sep : Nat) (a r : List Nat) (h : sep ∉ a) :
    stringsSplit sep (a ++ sep :: r) = a :: stringsSplit sep r := by
  induction a with
  | nil => simp [stringsSplit]
  | cons b a2 ih =>
    have hb : ¬b = sep := fun he => h (by simp [he])
    have ha : sep ∉ a2 := fun hm => h (by simp [hm])
    simp only [List.cons_append, stringsSplit, if_neg hb, List.append_eq, ih ha]

/-- The number of chunks is the separator count plus one. -/
theorem stringsSplit_length (sep : Nat) (s : List Nat) :
    (stringsSplit sep s).length = s.count sep + 1 := by
  induction s with
  | nil => simp [stringsSplit]
  | cons b rest ih =>
    by_cases hb : b = sep
    · subst hb
      simp [stringsSplit, ih, List.count_cons]
    · rcases hsp : stringsSplit sep rest with _ | ⟨c, cs⟩
      · rw [hsp] at ih
        simp at ih
      · rw [hsp] at ih
        have hne : ¬sep = b := fun he => hb he.symm
        have hcount : (b :: rest).count sep = rest.count sep := by
          simp [List.count_cons, hne]
        simp only [stringsSplit, if_neg hb, hsp, List.length_cons, hcount]
        simp only [List.length_cons] at ih
        omega

/-- The remaining input does not begin with a decimal digit byte. -/
def headNotDigit : List Nat → Prop
  | [] => True
  | b :: _ => ¬(48 ≤ b ∧ b ≤ 57)

/-- The fuelled digit loop emits the decimal digits, most significant
first. -/
theorem natToDecAux_digits : ∀ (fuel n : Nat) (acc : List Nat), n < fuel →
    natToDecAux fuel n acc =
      ((Nat.digits 10 n).map (fun d => 48 + d)).reverse ++ acc := by
  intro fuel
  induction fuel with
  | zero => intro n acc h; omega
  | succ fuel ih =>
    intro n acc h
    by_cases hn : n = 0
    · subst hn
      simp [natToDecAux]
    · have hdiv : n / 10 < n := Nat.div_lt_self (by omega) (by norm_num)
      have hd : Nat.digits 10 n = n % 10 :: Nat.digits 10 (n / 10) :=
        Nat.digits_def' (by norm_num) (by omega)
      simp only [natToDecAux, if_neg hn]
      rw [ih (n / 10) _ (by omega), hd]
      simp [List.append_assoc]

/-- Greedy digit parsing of a mapped big-endian digit string followed by a
non-digit. -/
theorem parseNumAux_digits : ∀ (es : List Nat) (rest : List Nat) (acc : Nat),
    (∀ d ∈ es, d < 10) → headNotDigit rest →
    parseNumAux (es.map (fun d => 48 + d) ++ rest) acc =
      (acc * 10 ^ es.length + Nat.ofDigits 10 es.reverse, rest) := by
  intro es
  induction es with
  | nil =>
    intro rest acc _ hrest
    cases rest with
    | nil => simp [parseNumAux, Nat.ofDigits]
    | cons b t =>
      simp only [List.map_nil, List.nil_append, parseNumAux]
      rw [if_neg hrest]
      simp [Nat.ofDigits]
  | cons d ds ih =>
    intro rest acc hd hrest
    have hd0 : d < 10 := hd d (by simp)
    simp only [List.map_cons, List.cons_append, List.append_eq, parseNumAux]
    rw [if_pos (by omega)]
    have hsub : 48 + d - 48 = d := by omega
    rw [hsub, ih rest _ (fun x hx => hd x (by simp [hx])) hrest]
    have happ : Nat.ofDigits 10 (ds.reverse ++ [d]) =
        Nat.ofDigits 10 ds.reverse + 10 ^ ds.length * d := by
      rw [Nat.ofDigits_append]
      simp [Nat.ofDigits]
    simp only [List.reverse_cons, happ, List.length_cons]
    congr 1
    ring

/-- The decimal rendering of a natural number starts with a digit byte. -/
theorem natToDec_head (n : Nat) : ∃ b t, natToDec n = b :: t ∧ 48 ≤ b ∧ b ≤ 57 := by
  by_cases hn : n = 0
  · exact ⟨48, [], by simp [natToDec, hn], by omega, by omega⟩
  · rw [natToDec, if_neg hn, natToDecAux_digits (n + 1) n [] (by omega)]
    rw [← List.map_reverse]
    rcases hrev : (Nat.digits 10 n).reverse with _ | ⟨e0, es⟩
    · have hne : Nat.digits 10 n ≠ [] := Nat.digits_ne_nil_iff_ne_zero.mpr hn
      have : Nat.digits 10 n = [] := by
        rw [← List.reverse_reverse (Nat.digits 10 n), hrev, List.reverse_nil]
      exact absurd this hne
    · have he0 : e0 < 10 := by
        have hmem : e0 ∈ Nat.digits 10 n := by
          rw [← List.mem_reverse, hrev]
          simp
        exact Nat.digits_lt_base (by norm_num) hmem
      exact ⟨48 + e0, es.map (fun d => 48 + d) ++ [],
        by simp, by omega, by omega⟩

/-- Parsing inverts the decimal rendering of a natural number. -/
theorem parseNatNum_natToDec (n : Nat) (rest : List Nat)
    (hrest : headNotDigit rest) :
    parseNatNum (natToDec n ++ rest) = some (n, rest) := by
  by_cases hn : n = 0
  · subst hn
    have h0 : natToDec 0 ++ rest = 48 :: rest := by simp [natToDec]
    rw [h0]
    simp only [parseNatNum]
    rw [if_pos (by omega)]
    cases rest with
    | nil => simp [parseNumAux]
    | cons b t =>
      simp only [parseNumAux]
      rw [if_neg hrest]
  · rw [natToDec, if_neg hn, natToDecAux_digits (n + 1) n [] (by omega)]
    rw [← List.map_reverse, List.append_nil]
    rcases hrev : (Nat.digits 10 n).reverse with _ | ⟨e0, es⟩
    · have hne : Nat.digits 10 n ≠ [] := Nat.digits_ne_nil_iff_ne_zero.mpr hn
      have : Nat.digits 10 n = [] := by
        rw [← List.reverse_reverse (Nat.digits 10 n), hrev, List.reverse_nil]
      exact absurd this hne
    · have hes : ∀ d ∈ es, d < 10 := by
        intro d hd
        have hmem : d ∈ Nat.digits 10 n := by
          rw [← List.mem_reverse, hrev]
          simp [hd]
        exact Nat.digits_lt_base (by norm_num) hmem
      have he0 : e0 < 10 := by
        have hmem : e0 ∈ Nat.digits 10 n := by
          rw [← List.mem_reverse, hrev]
          simp
        exact Nat.digits_lt_base (by norm_num) hmem
      simp only [List.map_cons, List.cons_append, parseNatNum]
      rw [if_pos (by omega)]
      have hsub : 48 + e0 - 48 = e0 := by omega
      rw [hsub, parseNumAux_digits es rest e0 hes hrest]
      have hdig : Nat.digits 10 n = es.reverse ++ [e0] := by
        rw [← List.reverse_reverse (Nat.digits 10 n), hrev]
        simp
      have hval : e0 * 10 ^ es.length + Nat.ofDigits 10 es.reverse = n := by
        conv_rhs => rw [← Nat.ofDigits_digits 10 n, hdig]
        rw [Nat.ofDigits_append]
        simp [Nat.ofDigits]
        ring
      rw [hval]

/-- Parsing inverts the decimal rendering of an int64. -/
theorem parseIntNum_intToDec (i : Int) (rest : List Nat)
    (hrest : headNotDigit rest) :
    parseIntNum (intToDec i ++ rest) = some (i, rest) := by
  by_cases hi : i < 0
  · rw [intToDec, if_pos hi]
    simp only [List.cons_append, parseIntNum, if_true]
    rw [parseNatNum_natToDec _ _ hrest]
    show some (-((i.natAbs : Nat) : Int), rest) = some (i, rest)
    have hcast : -((i.natAbs : Nat) : Int) = i := by omega
    rw [hcast]
  · rw [intToDec, if_neg hi]
    obtain ⟨b, t, hbt, hb1, hb2⟩ := natToDec_head i.natAbs
    rw [hbt]
    simp only [List.cons_append, parseIntNum]
    rw [if_neg (by omega), ← List.cons_append, ← hbt,
      parseNatNum_natToDec _ _ hrest]
    show some (((i.natAbs : Nat) : Int), rest) = some (i, rest)
    have hcast : ((i.natAbs : Nat) : Int) = i := by omega
    rw [hcast]

/-- The hex digit table is inverted by hexVal on every value below 16. -/
theorem hexVal_hexDigit_fin : ∀ v : Fin 16, hexVal (hexDigit v.val) = some v.val := by
  decide

/-- hexVal undoes hexDigit below 16. -/
theorem hexVal_hexDigit (v : Nat) (h : v < 16) : hexVal (hexDigit v) = some v :=
  hexVal_hexDigit_fin ⟨v, h⟩

/-- Parsing one escaped byte prepends the byte and continues. -/
theorem parseStringBody_escByte (b : Nat) (hb : b < 256) (tail : List Nat) :
    parseStringBody (jsonEscapeByte b ++ tail) =
      (parseStringBody tail).map (fun p => (b :: p.1, p.2)) := by
  by_cases h34 : b = 34
  · subst h34
    show parseStringBody (92 :: 34 :: tail) = _
    rw [parseStringBody.eq_def]
    simp
  by_cases h92 : b = 92
  · subst h92
    show parseStringBody (92 :: 92 :: tail) = _
    rw [parseStringBody.eq_def]
    simp
  by_cases h10 : b = 10
  · subst h10
    show parseStringBody (92 :: 110 :: tail) = _
    rw [parseStringBody.eq_def]
    simp
  by_cases h13 : b = 13
  · subst h13
    show parseStringBody (92 :: 114 :: tail) = _
    rw [parseStringBody.eq_def]
    simp
  by_cases h9 : b = 9
  · subst h9
    show parseStringBody (92 :: 116 :: tail) = _
    rw [parseStringBody.eq_def]
    simp
  by_cases hctrl : b < 32
  · have hesc : jsonEscapeByte b =
        [92, 117, 48, 48, hexDigit (b / 16), hexDigit (b % 16)] := by
      unfold jsonEscapeByte
      rw [if_neg h34, if_neg h92, if_neg h10, if_neg h13, if_neg h9, if_pos hctrl]
    rw [hesc]
    show parseStringBody
      (92 :: 117 :: 48 :: 48 :: hexDigit (b / 16) :: hexDigit (b % 16) :: tail) = _
    rw [parseStringBody.eq_def]
    have h48 : hexVal 48 = some 0 := rfl
    simp [h48, hexVal_hexDigit (b / 16) (by omega), hexVal_hexDigit (b % 16) (by omega)]
    congr 1
    funext p
    simp
    omega
  by_cases h60 : b = 60
  · subst h60
    show parseStringBody (92 :: 117 :: 48 :: 48 :: 51 :: 99 :: tail) = _
    rw [parseStringBody.eq_def]
    have h1 : hexVal 48 = some 0 := rfl
    have h2 : hexVal 51 = some 3 := rfl
    have h3 : hexVal 99 = some 12 := rfl
    simp [h1, h2, h3]
  by_cases h62 : b = 62
  · subst h62
    show parseStringBody (92 :: 117 :: 48 :: 48 :: 51 :: 101 :: tail) = _
    rw [parseStringBody.eq_def]
    have h1 : hexVal 48 = some 0 := rfl
    have h2 : hexVal 51 = some 3 := rfl
    have h3 : hexVal 101 = some 14 := rfl
    simp [h1, h2, h3]
  by_cases h38 : b = 38
  · subst h38
    show parseStringBody (92 :: 117 :: 48 :: 48 :: 50 :: 54 :: tail) = _
    rw [parseStringBody.eq_def]
    have h1 : hexVal 48 = some 0 := rfl
    have h2 : hexVal 50 = some 2 := rfl
    have h3 : hexVal 54 = some 6 := rfl
    simp [h1, h2, h3]
  · have hesc : jsonEscapeByte b = [b] := by
      unfold jsonEscapeByte
      rw [if_neg h34, if_neg h92, if_neg h10, if_neg h13, if_neg h9,
        if_neg (by omega), if_neg h60, if_neg h62, if_neg h38]
    rw [hesc]
    show parseStringBody (b :: tail) = _
    rw [parseStringBody.eq_def]
    simp [h34, h92]

/-- Parsing a string body inverts the JSON escape and stops at the closing
quote. -/
theorem parseStringBody_jsonEscape : ∀ (s : List Nat), (∀ b ∈ s, b < 256) →
    ∀ rest, parseStringBody (jsonEscape s ++ 34 :: rest) = some (s, rest)
  | [], _ => by
    intro rest
    show parseStringBody (34 :: rest) = some ([], rest)
    rw [parseStringBody.eq_def]
    simp
  | b :: s2, h => by
    intro rest
    have hb : b < 256 := h b (by simp)
    have ih := parseStringBody_jsonEscape s2 (fun x hx => h x (by simp [hx])) rest
    have hesc : jsonEscape (b :: s2) = jsonEscapeByte b ++ jsonEscape s2 := by
      simp [jsonEscape]
    rw [hesc, List.append_assoc, parseStringBody_escByte b hb, ih]
    rfl

/-- Expecting a literal prefix consumes exactly that prefix. -/
theorem parseLit_append (l rest : List Nat) : parseLit l (l ++ rest) = some rest := by
  induction l with
  | nil => rfl
  | cons b t ih => simp [parseLit, ih]

/-- Escaping one byte below 256 yields bytes below 256. -/
theorem jsonEscapeByte_lt (b : Nat) (hb : b < 256) :
    ∀ x ∈ jsonEscapeByte b, x < 256 := by
  intro x hx
  have hhex1 : hexDigit (b / 16) < 256 := by
    unfold hexDigit
    split <;> omega
  have hhex2 : hexDigit (b % 16) < 256 := by
    unfold hexDigit
    split <;> omega
  unfold jsonEscapeByte at hx
  repeat' first
  | (simp at hx; omega)
  | split at hx

/-- Escaping a byte string below 256 yields bytes below 256. -/
theorem jsonEscape_lt (s : List Nat) (h : ∀ b ∈ s, b < 256) :
    ∀ x ∈ jsonEscape s, x < 256 := by
  intro x hx
  unfold jsonEscape at hx
  rw [List.mem_flatten] at hx
  rcases hx with ⟨l, hl, hxl⟩
  rcases List.mem_map.mp hl with ⟨b, hb, rfl⟩
  exact jsonEscapeByte_lt b (h b hb) x hxl

/-- Decimal digit bytes are below 256. -/
theorem natToDec_lt (n : Nat) : ∀ x ∈ natToDec n, x < 256 := by
  intro x hx
  by_cases hn : n = 0
  · subst hn
    simp [natToDec] at hx
    omega
  · rw [natToDec, if_neg hn, natToDecAux_digits (n + 1) n [] (by omega)] at hx
    simp at hx
    rcases hx with ⟨d, hd, rfl⟩
    have := Nat.digits_lt_base (by norm_num) hd
    omega

/-- Signed decimal bytes are below 256. -/
theorem intToDec_lt (i : Int) : ∀ x ∈ intToDec i, x < 256 := by
  intro x hx
  unfold intToDec at hx
  split at hx
  · simp at hx
    rcases hx with rfl | hx
    · omega
    · exact natToDec_lt _ x hx
  · exact natToDec_lt _ x hx

/-- The serialised claims consist of bytes below 256. -/
theorem jsonMarshalClaims_lt (c : JWTClaims) (hu : ∀ b ∈ c.username, b < 256)
    (hj : ∀ b ∈ c.jti, b < 256) : ∀ x ∈ jsonMarshalClaims c, x < 256 := by
  intro x hx
  unfold jsonMarshalClaims at hx
  simp only [List.append_assoc, List.mem_append] at hx
  rcases hx with hx | hx | hx | hx | hx | hx | hx | hx | hx
  · exact (by decide : ∀ x ∈ strBytes "\x7b\"user_id\":", x < 256) x hx
  · exact intToDec_lt _ x hx
  · exact (by decide : ∀ x ∈ strBytes ",\"username\":\"", x < 256) x hx
  · exact jsonEscape_lt _ hu x hx
  · exact (by decide : ∀ x ∈ strBytes "\",\"jti\":\"", x < 256) x hx
  · exact jsonEscape_lt _ hj x hx
  · exact (by decide : ∀ x ∈ strBytes "\",\"exp\":", x < 256) x hx
  · exact intToDec_lt _ x hx
  · exact (by decide : ∀ x ∈ strBytes "\x7d", x < 256) x hx

/-- Hex encoding of a non-empty byte list is non-empty. -/
theorem hexEncodeBytes_ne_nil (l : List Nat) (h : l ≠ []) :
    hexEncodeBytes l ≠ [] := by
  cases l with
  | nil => exact absurd rfl h
  | cons b t => simp [hexEncodeBytes]

/-- Hex encoding of bytes below 256 yields bytes below 256. -/
theorem hexEncodeBytes_lt : ∀ (l : List Nat), (∀ b ∈ l, b < 256) →
    ∀ x ∈ hexEncodeBytes l, x < 256
  | [], _ => by simp [hexEncodeBytes]
  | b :: t, h => by
    intro x hx
    have hb : b < 256 := h b (by simp)
    have ih := hexEncodeBytes_lt t (fun y hy => h y (by simp [hy]))
    have hhex : ∀ v : Nat, hexDigit v ≤ 87 + v := by
      intro v
      unfold hexDigit
      split <;> omega
    simp only [hexEncodeBytes, List.mem_cons] at hx
    rcases hx with rfl | rfl | hx
    · have := hhex (b / 16)
      omega
    · have := hhex (b % 16)
      omega
    · exact ih x hx

/-- Unmarshalling inverts marshalling of the JWT claims. -/
theorem jsonUnmarshal_marshal (c : JWTClaims)
    (hu : ∀ b ∈ c.username, b < 256) (hj : ∀ b ∈ c.jti, b < 256) :
    jsonUnmarshalClaims (jsonMarshalClaims c) = some c := by
  obtain ⟨uid, uname, jti, exp⟩ := c
  simp only at hu hj
  have e3 : strBytes "\",\"jti\":\"" = 34 :: strBytes ",\"jti\":\"" := rfl
  have e4 : strBytes "\",\"exp\":" = 34 :: strBytes ",\"exp\":" := rfl
  have hmar : jsonMarshalClaims ⟨uid, uname, jti, exp⟩ =
      strBytes "\x7b\"user_id\":" ++
        (intToDec uid ++
          (strBytes ",\"username\":\"" ++
            (jsonEscape uname ++
              (34 :: (strBytes ",\"jti\":\"" ++
                (jsonEscape jti ++
                  (34 :: (strBytes ",\"exp\":" ++
                    (intToDec exp ++ strBytes "\x7d"))))))))) := by
    unfold jsonMarshalClaims
    rw [e3, e4]
    simp [List.append_assoc]
  have h1 := parseLit_append (strBytes "\x7b\"user_id\":")
    (intToDec uid ++
      (strBytes ",\"username\":\"" ++
        (jsonEscape uname ++
          (34 :: (strBytes ",\"jti\":\"" ++
            (jsonEscape jti ++
              (34 :: (strBytes ",\"exp\":" ++
                (intToDec exp ++ strBytes "\x7d")))))))))
  have h2 : parseIntNum
      (intToDec uid ++
        (strBytes ",\"username\":\"" ++
          (jsonEscape uname ++
            (34 :: (strBytes ",\"jti\":\"" ++
              (jsonEscape jti ++
                (34 :: (strBytes ",\"exp\":" ++
                  (intToDec exp ++ strBytes "\x7d"))))))))) =
      some (uid, strBytes ",\"username\":\"" ++
        (jsonEscape uname ++
          (34 :: (strBytes ",\"jti\":\"" ++
            (jsonEscape jti ++
              (34 :: (strBytes ",\"exp\":" ++
                (intToDec exp ++ strBytes "\x7d")))))))) :=
    parseIntNum_intToDec uid _ (by show ¬(48 ≤ 44 ∧ 44 ≤ 57); decide)
  have h4 := parseLit_append (strBytes ",\"username\":\"")
    (jsonEscape uname ++
      (34 :: (strBytes ",\"jti\":\"" ++
        (jsonEscape jti ++
          (34 :: (strBytes ",\"exp\":" ++
            (intToDec exp ++ strBytes "\x7d")))))))
  have h5 := parseStringBody_jsonEscape uname hu
    (strBytes ",\"jti\":\"" ++
      (jsonEscape jti ++
        (34 :: (strBytes ",\"exp\":" ++
          (intToDec exp ++ strBytes "\x7d")))))
  have h6 := parseLit_append (strBytes ",\"jti\":\"")
    (jsonEscape jti ++
      (34 :: (strBytes ",\"exp\":" ++
        (intToDec exp ++ strBytes "\x7d"))))
  have h7 := parseStringBody_jsonEscape jti hj
    (strBytes ",\"exp\":" ++ (intToDec exp ++ strBytes "\x7d"))
  have h8 := parseLit_append (strBytes ",\"exp\":")
    (intToDec exp ++ strBytes "\x7d")
  have h9 : parseIntNum (intToDec exp ++ strBytes "\x7d") =
      some (exp, strBytes "\x7d") :=
    parseIntNum_intToDec exp _ (by show ¬(48 ≤ 125 ∧ 125 ≤ 57); decide)
  have h10 : parseLit (strBytes "\x7d") (strBytes "\x7d") = some [] := by decide
  unfold jsonUnmarshalClaims
  rw [hmar, h1]
  simp only [Option.bind_eq_bind, Option.some_bind, h2, h4, h5, h6, h7, h8, h9,
    h10]

/-- C3: a token produced by GenerateJWT is accepted by validateJWT under
the same secret, carrying the same user id and username, the non-empty hex
JTI, and an expiry of issuance time plus duration truncated to Unix
seconds; and validateJWT rejects any three-segment token whose signature
differs from the HMAC-SHA256 of its first two segments under the secret. -/
theorem C3_jwt_roundtrip_and_signature_rejection :
    (∀ (userID : Int) (username secret : List Nat) (nowNs expiresInNs : Int)
       (jtiBytes : List Nat),
      (∀ b ∈ username, b < 256) → (∀ b ∈ jtiBytes, b < 256) →
      jtiBytes.length = 16 → 0 < expiresInNs →
      validateJWT (GenerateJWT userID username secret nowNs expiresInNs jtiBytes)
          secret =
        some ⟨userID, username, hexEncodeBytes jtiBytes,
          goUnix (nowNs + expiresInNs)⟩ ∧
      hexEncodeBytes jtiBytes ≠ []) ∧
    (∀ (a b c secret : List Nat),
      c ≠ createSignature (a ++ dotByte :: b) secret →
      validateJWT (a ++ dotByte :: (b ++ dotByte :: c)) secret = none) := by
  constructor
  · intro uid uname secret now dur jtiB hu hjb hlen _
    have hjlt : ∀ b ∈ hexEncodeBytes jtiB, b < 256 := hexEncodeBytes_lt jtiB hjb
    have hclaims :
        (⟨uid, uname, hexEncodeBytes jtiB, goUnix (now + dur)⟩ : JWTClaims).username =
          uname := rfl
    have hmlt : ∀ x ∈ jsonMarshalClaims
        ⟨uid, uname, hexEncodeBytes jtiB, goUnix (now + dur)⟩, x < 256 :=
      jsonMarshalClaims_lt _ hu hjlt
    have hd1 : dotByte ∉ headerSegment := by decide
    have hd2 : dotByte ∉ base64urlEncode (jsonMarshalClaims
        ⟨uid, uname, hexEncodeBytes jtiB, goUnix (now + dur)⟩) :=
      dot_not_mem_base64urlEncode _
    have hd3 : dotByte ∉ createSignature
        (headerSegment ++ dotByte :: base64urlEncode (jsonMarshalClaims
          ⟨uid, uname, hexEncodeBytes jtiB, goUnix (now + dur)⟩)) secret :=
      dot_not_mem_base64urlEncode _
    have htok : GenerateJWT uid uname secret now dur jtiB =
        headerSegment ++ dotByte :: (base64urlEncode (jsonMarshalClaims
          ⟨uid, uname, hexEncodeBytes jtiB, goUnix (now + dur)⟩) ++
            dotByte :: createSignature (headerSegment ++
              dotByte :: base64urlEncode (jsonMarshalClaims
                ⟨uid, uname, hexEncodeBytes jtiB, goUnix (now + dur)⟩)) secret) := by
      unfold GenerateJWT
      simp [List.append_assoc]
    have hsp : stringsSplit dotByte (GenerateJWT uid uname secret now dur jtiB) =
        [headerSegment,
         base64urlEncode (jsonMarshalClaims
           ⟨uid, uname, hexEncodeBytes jtiB, goUnix (now + dur)⟩),
         createSignature (headerSegment ++ dotByte :: base64urlEncode
           (jsonMarshalClaims
             ⟨uid, uname, hexEncodeBytes jtiB, goUnix (now + dur)⟩)) secret] := by
      rw [htok, stringsSplit_append dotByte headerSegment _ hd1,
        stringsSplit_append dotByte _ _ hd2, stringsSplit_sepFree dotByte _ hd3]
    refine ⟨?_, hexEncodeBytes_ne_nil jtiB (by
      intro hnil
      rw [hnil] at hlen
      simp at hlen)⟩
    unfold validateJWT
    rw [hsp]
    simp only []
    rw [if_neg (by simp), base64url_roundtrip _ hmlt]
    show jsonUnmarshalClaims (jsonMarshalClaims
      ⟨uid, uname, hexEncodeBytes jtiB, goUnix (now + dur)⟩) = _
    exact jsonUnmarshal_marshal _ hu hjlt
  · intro a b c secret hne
    by_cases hfree : dotByte ∉ a ∧ dotByte ∉ b ∧ dotByte ∉ c
    · obtain ⟨ha, hb2, hc⟩ := hfree
      unfold validateJWT
      rw [stringsSplit_append dotByte a _ ha, stringsSplit_append dotByte b _ hb2,
        stringsSplit_sepFree dotByte c hc]
      simp only []
      rw [if_pos hne]
    · have hmem : dotByte ∈ a ∨ dotByte ∈ b ∨ dotByte ∈ c := by
        by_contra hcon
        push_neg at hcon
        exact hfree ⟨hcon.1, hcon.2.1, hcon.2.2⟩
      have hcount : 1 ≤ a.count dotByte + b.count dotByte + c.count dotByte := by
        rcases hmem with hm | hm | hm
        · have := List.count_pos_iff.mpr hm
          omega
        · have := List.count_pos_iff.mpr hm
          omega
        · have := List.count_pos_iff.mpr hm
          omega
      have hlen4 : 4 ≤ (stringsSplit dotByte (a ++ dotByte :: (b ++ dotByte :: c))).length := by
        rw [stringsSplit_length]
        have hcnt : (a ++ dotByte :: (b ++ dotByte :: c)).count dotByte =
            a.count dotByte + (b.count dotByte + (c.count dotByte + 1) + 1) := by
          simp [List.count_append, List.count_cons]
        rw [hcnt]
        omega
      rcases hlist : stringsSplit dotByte (a ++ dotByte :: (b ++ dotByte :: c)) with
        _ | ⟨x0, _ | ⟨x1, _ | ⟨x2, _ | _⟩⟩⟩ <;> rw [hlist] at hlen4 <;>
        simp at hlen4
      unfold validateJWT
      rw [hlist]

/-- The JTI random bytes of the C3 witness. -/
def c3JtiBytes : List Nat := List.replicate 16 7

set_option maxRecDepth 10000 in
/-- Witness for C3: the round trip at a concrete issuance, and the
rejection of a token whose third segment is a bare dot (which no signature
can equal, as the base64url alphabet avoids the dot). -/
theorem C3_jwt_roundtrip_and_signature_rejection_witness :
    (validateJWT (GenerateJWT 9 (strBytes "bob") (strBytes "k") 0 1 c3JtiBytes)
        (strBytes "k") =
      some ⟨9, strBytes "bob", hexEncodeBytes c3JtiBytes, goUnix (0 + 1)⟩ ∧
      hexEncodeBytes c3JtiBytes ≠ []) ∧
    validateJWT (strBytes "x" ++ dotByte :: (strBytes "y" ++ dotByte :: [dotByte]))
      (strBytes "k") = none := by
  constructor
  · exact C3_jwt_roundtrip_and_signature_rejection.1 9 (strBytes "bob")
      (strBytes "k") 0 1 c3JtiBytes (by decide) (by decide) (by decide) (by decide)
  · exact C3_jwt_roundtrip_and_signature_rejection.2 (strBytes "x") (strBytes "y")
      [dotByte] (strBytes "k")
      (by
        intro heq
        exact dot_not_mem_base64urlEncode _
          (heq ▸ (by decide : dotByte ∈ [dotByte])))

end GitRight
